import Mathlib

/-!
# Verification of the pysic calculator orchestration layer

A shallow embedding of `src/pysic/calculator.py` (the `Pysic` calculator and
`FastNeighborList` classes) together with spec-modelled stubs for the parts of
the repository that are referenced by the calculator but whose sources are not
available (`pysic.core.CoreMirror`, `pysic.utility.error`, the `Potential`,
`Coordinator`, `BondOrderParameters` and `CoulombSummation` interaction
classes).  Machine floats are modelled as rationals; the external Fortran
engine (`pysic.pysic_fortran.pysic_interface`) is modelled as an atom counter
plus a trace of the calls issued to it, so that claims about the order and
number of engine pushes can be stated as properties of the trace.
-/

namespace PysicModel

/-- A 3-component vector of (exact) coordinates, modelling a numpy length-3
float array. -/
structure Vec3 where
  x : ℚ
  y : ℚ
  z : ℚ
deriving DecidableEq, Repr

/-- Dot product of two 3-vectors, modelling `np.dot`. -/
def dot (a b : Vec3) : ℚ := a.x * b.x + a.y * b.y + a.z * b.z

/-- Cross product of two 3-vectors, modelling `np.cross`. -/
def cross (a b : Vec3) : Vec3 :=
  ⟨a.y * b.z - a.z * b.y, a.z * b.x - a.x * b.z, a.x * b.y - a.y * b.x⟩

/-- One atom of an ASE `Atoms` object: chemical species label, integer tag,
position, momentum, mass and charge. -/
structure AtomDatum where
  symbol : String
  tag : Int
  position : Vec3
  momentum : Vec3
  mass : ℚ
  charge : ℚ
deriving DecidableEq, Repr

/-- An ASE `Atoms` structure: the ordered atom list, the three cell vectors
and the periodic-boundary flags. -/
structure Atoms where
  atoms : List AtomDatum
  cell0 : Vec3
  cell1 : Vec3
  cell2 : Vec3
  pbc : Bool × Bool × Bool
deriving DecidableEq, Repr

namespace Atoms

/-- `Atoms.get_number_of_atoms`. -/
def get_number_of_atoms (s : Atoms) : Nat := s.atoms.length

/-- `Atoms.get_charges`. -/
def get_charges (s : Atoms) : List ℚ := s.atoms.map (·.charge)

/-- `Atoms.get_positions`. -/
def get_positions (s : Atoms) : List Vec3 := s.atoms.map (·.position)

/-- `Atoms.get_momenta`. -/
def get_momenta (s : Atoms) : List Vec3 := s.atoms.map (·.momentum)

/-- `Atoms.get_chemical_symbols` (we use the species label also in place of
`get_atomic_numbers`, since the two carry the same information). -/
def get_chemical_symbols (s : Atoms) : List String := s.atoms.map (·.symbol)

/-- `Atoms.get_tags`. -/
def get_tags (s : Atoms) : List Int := s.atoms.map (·.tag)

/-- The cell vector of a given axis, `structure.get_cell()[i]`. -/
def cellVec (s : Atoms) : Fin 3 → Vec3
  | 0 => s.cell0
  | 1 => s.cell1
  | 2 => s.cell2

end Atoms

/-- Modelled from the spec: structure identity equality used for
synchronization ("same atom count, same positions, same charges, same
species/tags, same cell — compared by value").  This models the value
comparison `structure == atoms` performed through the external ASE `Atoms`
class, whose source is not part of this repository.  Masses and momenta do
not take part in the identity. -/
def aseEq (a b : Atoms) : Bool :=
  (a.atoms.length == b.atoms.length)
    && (a.get_positions == b.get_positions)
    && (a.get_charges == b.get_charges)
    && (a.get_chemical_symbols == b.get_chemical_symbols)
    && (a.get_tags == b.get_tags)
    && (a.cell0 == b.cell0) && (a.cell1 == b.cell1) && (a.cell2 == b.cell2)
    && (a.pbc == b.pbc)

/-- Modelled from the spec: a bond-order parameter bundle
(`pysic.interactions.bondorder.BondOrderParameters`, not under `src/`): a
named bond-order factor with symbol-tuple targets, a cutoff and a soft
cutoff. -/
structure BondOrderParameters where
  bond_order_type : String
  symbols : List (List String)
  cutoff : ℚ
  soft_cutoff : ℚ
  parameters_as_list : List ℚ
deriving DecidableEq, Repr

/-- Modelled from the spec: `get_different_symbols` of a bond-order
parameter — the distinct species labels appearing in any of its target
tuples ("matching is inclusive: an atom matches a model if it appears in
any permutation-target tuple of that model"). -/
def BondOrderParameters.get_different_symbols (b : BondOrderParameters) : List String :=
  b.symbols.flatten.dedup

/-- Modelled from the spec: a coordination bundle
(`pysic.interactions.bondorder.Coordinator`, not under `src/`) holding a
list of bond-order parameters. -/
structure Coordinator where
  bond_order_parameters : List BondOrderParameters
deriving DecidableEq, Repr

/-- Modelled from the spec: an interaction model
(`pysic.interactions.local.Potential`, not under `src/`): a named potential
with a target specification by species tuples, tag tuples or explicit
atom-index tuples (each kind optional, `none` meaning absent), a cutoff, a
soft cutoff, a parameter vector, the number of targets, and an optional
coordination bundle. -/
structure Potential where
  potential_type : String
  parameter_values : List ℚ
  cutoff : ℚ
  soft_cutoff : ℚ
  n_targets : Nat
  symbols : Option (List (List String))
  tags : Option (List (List Int))
  indices : Option (List (List Nat))
  coordinator : Option Coordinator
deriving DecidableEq, Repr

namespace Potential

/-- Modelled from the spec: the distinct species labels appearing in any
symbol-target tuple of the potential. -/
def get_different_symbols (p : Potential) : List String :=
  (p.symbols.getD []).flatten.dedup

/-- Modelled from the spec: the distinct tags appearing in any tag-target
tuple of the potential. -/
def get_different_tags (p : Potential) : List Int :=
  (p.tags.getD []).flatten.dedup

/-- Modelled from the spec: the distinct atom indices appearing in any
index-target tuple of the potential. -/
def get_different_indices (p : Potential) : List Nat :=
  (p.indices.getD []).flatten.dedup

end Potential

/-- Modelled from the spec: a Coulomb summation configuration
(`pysic.interactions.coulomb.CoulombSummation`, not under `src/`): the
summation mode (the first and only listed mode being the Ewald summation),
the real-space cutoff, k-space cutoff, width and permittivity parameters,
and optional per-atom scaling factors. -/
structure CoulombSummation where
  method : String
  real_cutoff : ℚ
  k_cutoff : ℚ
  sigma : ℚ
  epsilon : ℚ
  scaling_factors : Option (List ℚ)
deriving DecidableEq, Repr

/-- Modelled from the spec: `CoulombSummation.get_realspace_cutoff`. -/
def CoulombSummation.get_realspace_cutoff (c : CoulombSummation) : ℚ :=
  c.real_cutoff

/-- Modelled from the spec: the error kinds of `pysic.utility.error`
(not under `src/`) as described by the spec's error taxonomy, together
with the generic Python errors that the calculator code can raise when
attributes are missing or a numpy reduction is applied to an empty list. -/
inductive ErrorKind
  | missingAtomsError
  | structureMismatchError
  | lockedCoreError
  | invalidParametersError
  | attributeError
  | valueError
deriving DecidableEq, Repr

deriving instance DecidableEq for Except

/-- One call into the external Fortran engine
(`pysic.pysic_fortran.pysic_interface`), recorded with the arguments that
the claims talk about. -/
inductive ECall
  | create_atoms (n : Nat)
  | distribute_mpi (n : Nat)
  | create_cell
  | update_atom_coordinates
  | update_atom_charges (charges : List ℚ)
  | allocate_potentials (n : Nat)
  | add_potential (ptype : String) (cutoff : ℚ)
      (symbols : Option (List String)) (tags : Option (List Int))
      (indices : Option (List Nat)) (group_index : Int)
  | allocate_bond_order_factors (n : Nat)
  | add_bond_order_factor (btype : String) (symbols : List String) (group_index : Int)
  | allocate_bond_order_storage (n_atoms : Nat) (n_pots : Nat) (n_coords : Nat)
  | create_potential_list
  | create_bond_order_factor_list
  | generate_neighbor_lists
  | get_neighbors (i : Nat)
  | create_neighbor_list (i : Nat)
  | set_ewald_parameters (rcut : ℚ)
  | calc_energy (n : Nat)
  | calc_forces (n : Nat)
  | calc_electronegativities (n : Nat)
deriving DecidableEq, Repr

/-- The external Fortran engine, modelled by the atom count it currently
holds (`pysic_interface.get_number_of_atoms`) plus the trace of all calls
issued to it. -/
structure Engine where
  n_atoms : Nat
  trace : List ECall
deriving DecidableEq, Repr

/-- Record one engine call on the trace. -/
def Engine.emit (e : Engine) (c : ECall) : Engine :=
  { e with trace := e.trace ++ [c] }

/-- Record a batch of engine calls on the trace, in order. -/
def Engine.emitAll (e : Engine) (l : List ECall) : Engine :=
  { e with trace := e.trace ++ l }


/-- The two neighbor-list implementations the calculator can construct:
the spatially partitioning `FastNeighborList` of `calculator.py` and the
brute-force ASE `NeighborList` fallback. -/
inductive NbrKind
  | fast
  | ase
deriving DecidableEq, Repr

/-- A neighbor-list object as far as the calculator observes it: which
implementation it is, its per-atom cutoffs, its skin width, how many times
it has been built, and the positions it was last built for. -/
structure NeighborList where
  kind : NbrKind
  cutoffs : List ℚ
  skin : ℚ
  nupdates : Nat
  positions : List Vec3
deriving DecidableEq, Repr

/-- Modelled from the spec: the process-wide `pysic.core.CoreMirror`
instance (`Pysic.core`), whose source is not under `src/`.  It shadows
everything pushed into the external engine: an atoms snapshot (with the
charges, positions and momenta snapshots folded into the per-atom data, as
the setters below update them in place), a cell snapshot, a potentials
snapshot, a Coulomb-configuration snapshot, a neighbor-list snapshot, and
the worker-distribution and potential-applicability-list readiness flags. -/
structure CoreMirror where
  struct : Option Atoms
  cell : Option (Vec3 × Vec3 × Vec3 × (Bool × Bool × Bool))
  potentials : Option (Option (List Potential))
  coulomb : Option CoulombSummation
  neighbor_lists : Option NeighborList
  potential_lists_ready : Bool
  mpi_ready : Bool
deriving DecidableEq, Repr

namespace CoreMirror

/-- Modelled from the spec: the initial mirror state, in which nothing has
been pushed to the engine yet. -/
def init : CoreMirror :=
  { struct := none, cell := none, potentials := none, coulomb := none,
    neighbor_lists := none, potential_lists_ready := false, mpi_ready := false }

/-- Modelled from the spec: `CoreMirror.get_atoms`, the mirrored atoms
snapshot. -/
def get_atoms (m : CoreMirror) : Option Atoms := m.struct

/-- Modelled from the spec: `CoreMirror.atoms_ready` — value comparison of
the given structure against the mirrored atoms snapshot (count, species,
tags, positions and momenta; charges and cell have their own predicates). -/
def atoms_ready (m : CoreMirror) (s : Option Atoms) : Bool :=
  match m.struct, s with
  | some t, some a =>
      (t.atoms.length == a.atoms.length)
        && (t.get_chemical_symbols == a.get_chemical_symbols)
        && (t.get_tags == a.get_tags)
        && (t.get_positions == a.get_positions)
        && (t.get_momenta == a.get_momenta)
  | _, _ => false

/-- Modelled from the spec: `CoreMirror.charges_ready` — value comparison
of the given structure's charges against the mirrored charges snapshot. -/
def charges_ready (m : CoreMirror) (s : Option Atoms) : Bool :=
  match m.struct, s with
  | some t, some a => t.get_charges == a.get_charges
  | _, _ => false

/-- Modelled from the spec: `CoreMirror.cell_ready` — value comparison of
the given structure's cell vectors and periodicity against the mirrored
cell snapshot. -/
def cell_ready (m : CoreMirror) (s : Option Atoms) : Bool :=
  match m.cell, s with
  | some c, some a => c == (a.cell0, a.cell1, a.cell2, a.pbc)
  | _, _ => false

/-- Modelled from the spec: `CoreMirror.potentials_ready` — comparison of
the given potential list against the mirrored potentials snapshot (never
ready before the first push). -/
def potentials_ready (m : CoreMirror) (p : Option (List Potential)) : Bool :=
  match m.potentials with
  | none => false
  | some q => q == p

/-- Modelled from the spec: `CoreMirror.coulomb_summation_ready` —
comparison of the given Coulomb configuration against the mirrored
snapshot. -/
def coulomb_summation_ready (m : CoreMirror) (c : CoulombSummation) : Bool :=
  match m.coulomb with
  | none => false
  | some d => d == c

/-- Modelled from the spec: `CoreMirror.neighbor_lists_ready` — comparison
of the given neighbor-list object against the mirrored snapshot (never
ready before the first push or after the snapshot was reset). -/
def neighbor_lists_ready (m : CoreMirror) (nl : Option NeighborList) : Bool :=
  match m.neighbor_lists with
  | none => false
  | some q => some q == nl

/-- Modelled from the spec: `CoreMirror.set_atoms` — overwrite the atoms
snapshot after a successful `create_atoms` push. -/
def set_atoms (m : CoreMirror) (s : Atoms) : CoreMirror :=
  { m with struct := some s }

/-- Modelled from the spec: `CoreMirror.set_atomic_positions` — overwrite
the positions part of the atoms snapshot after a coordinate push. -/
def set_atomic_positions (m : CoreMirror) (s : Atoms) : CoreMirror :=
  { m with struct := m.struct.map fun t =>
      { t with atoms := (t.atoms.zip s.get_positions).map fun pr =>
          { pr.1 with position := pr.2 } } }

/-- Modelled from the spec: `CoreMirror.set_atomic_momenta` — overwrite
the momenta part of the atoms snapshot after a coordinate push. -/
def set_atomic_momenta (m : CoreMirror) (s : Atoms) : CoreMirror :=
  { m with struct := m.struct.map fun t =>
      { t with atoms := (t.atoms.zip s.get_momenta).map fun pr =>
          { pr.1 with momentum := pr.2 } } }

/-- Modelled from the spec: `CoreMirror.set_charges` — overwrite the
charges part of the atoms snapshot after a charge push. -/
def set_charges (m : CoreMirror) (charges : List ℚ) : CoreMirror :=
  { m with struct := m.struct.map fun t =>
      { t with atoms := (t.atoms.zip charges).map fun pr =>
          { pr.1 with charge := pr.2 } } }

/-- Modelled from the spec: `CoreMirror.set_cell` — overwrite the cell
snapshot after a cell push. -/
def set_cell (m : CoreMirror) (s : Atoms) : CoreMirror :=
  { m with cell := some (s.cell0, s.cell1, s.cell2, s.pbc) }

/-- Modelled from the spec: `CoreMirror.set_potentials` — overwrite the
potentials snapshot after a potential push. -/
def set_potentials (m : CoreMirror) (p : Option (List Potential)) : CoreMirror :=
  { m with potentials := some p }

/-- Modelled from the spec: `CoreMirror.set_coulomb` — overwrite the
Coulomb snapshot after a Coulomb-parameter push. -/
def set_coulomb (m : CoreMirror) (c : CoulombSummation) : CoreMirror :=
  { m with coulomb := some c }

/-- Modelled from the spec: `CoreMirror.set_neighbor_lists` — overwrite the
neighbor-list snapshot (`none` resets it to unknown). -/
def set_neighbor_lists (m : CoreMirror) (nl : Option NeighborList) : CoreMirror :=
  { m with neighbor_lists := nl }

end CoreMirror

/-- The argument accepted by `Pysic.set_potentials`: either a bare
`Potential` object or a list of them (`isinstance(potentials, list)`). -/
inductive PotArg
  | one (p : Potential)
  | many (ps : List Potential)
deriving DecidableEq, Repr

/-- The state of one `Pysic` calculator instance: the assigned structure,
potentials, Coulomb configuration and charge-relaxation hook, the neighbor
list object, the saved cutoffs, the neighbor-list bookkeeping flag, the
forced-full-reinitialization mode, and the four cached results (which the
claims only consume as known (`some`) versus unknown (`none`)). -/
structure Calc where
  struct : Option Atoms
  potentials : Option (List Potential)
  coulomb : Option CoulombSummation
  charge_relaxation : Option Unit
  neighbor_list : Option NeighborList
  saved_cutoffs : Option (List ℚ)
  neighbor_lists_waiting : Bool
  force_core_initialization : Bool
  forces : Option Unit
  energy : Option Unit
  stress : Option Unit
  electronegativities : Option Unit
deriving DecidableEq, Repr

/-- The whole program state: one calculator instance, the process-wide
core mirror (`Pysic.core`) and the external engine. -/
structure World where
  cal : Calc
  core : CoreMirror
  engine : Engine
deriving DecidableEq, Repr

/-- Default skin width for the neighbor list (`neighbor_marginal = 0.5`). -/
def neighbor_marginal : ℚ := 1/2

/-- The initial value of the per-atom maximum-cutoff loop of
`Pysic.get_individual_cutoffs`: the Coulomb real-space cutoff if a Coulomb
scheme is configured, zero otherwise. -/
def coulomb_init (c : Calc) : ℚ :=
  match c.coulomb with
  | none => 0
  | some cl => cl.get_realspace_cutoff

/-- Whether a potential is active for an atom in
`Pysic.get_individual_cutoffs`: its distinct symbols contain the atom's
species, or its distinct tags contain the atom's tag, or its distinct
indices contain the atom's index. -/
def pot_active (p : Potential) (symbol : String) (tag : Int) (index : Nat) : Bool :=
  decide (0 < p.get_different_symbols.count symbol)
    || decide (0 < p.get_different_tags.count tag)
    || decide (0 < p.get_different_indices.count index)

/-- The inner bond-order loop of `Pysic.get_individual_cutoffs`: raise the
running maximum to the cutoff of every bond-order parameter of the
potential's coordinator whose symbols contain the atom's species (the
`try`/`except` around the loop makes an absent coordinator contribute
nothing). -/
def bond_loop (p : Potential) (symbol : String) (m : ℚ) : ℚ :=
  match p.coordinator with
  | none => m
  | some coord =>
      coord.bond_order_parameters.foldl
        (fun m b =>
          if decide (0 < b.get_different_symbols.count symbol) && decide (m < b.cutoff)
          then b.cutoff else m) m

/-- The per-atom body of `Pysic.get_individual_cutoffs`: fold over all
potentials, raising the running maximum to the cutoff of each active
potential and of each species-matching bond-order parameter. -/
def atomMaxCut (c : Calc) (ps : List Potential) (symbol : String) (tag : Int)
    (index : Nat) : ℚ :=
  ps.foldl
    (fun max_cut p =>
      let m1 := if pot_active p symbol tag index && decide (max_cut < p.cutoff)
                then p.cutoff else max_cut
      bond_loop p symbol m1)
    (coulomb_init c)

/-- `Pysic.get_individual_cutoffs`: `none` without a structure; with a
structure but a `None` potential list, a constant list (zero, or the
Coulomb real-space cutoff); otherwise the per-atom maximum cutoffs, each
multiplied by the scaler. -/
def get_individual_cutoffs (c : Calc) (scaler : ℚ) : Option (List ℚ) :=
  match c.struct with
  | none => none
  | some s =>
    match c.potentials with
    | none =>
      match c.coulomb with
      | none => some (List.replicate s.get_number_of_atoms 0)
      | some cl => some (List.replicate s.get_number_of_atoms cl.get_realspace_cutoff)
    | some ps =>
      some (s.atoms.enum.map fun pr => atomMaxCut c ps pr.2.symbol pr.2.tag pr.1 * scaler)

/-- `Pysic.neighbor_lists_expanded`: the new cutoffs require a rebuild if
no cutoffs were saved, no new cutoffs exist, the lengths differ, or some
saved cutoff is smaller than the corresponding new one. -/
def neighbor_lists_expanded (saved_cutoffs : Option (List ℚ))
    (cutoffs : Option (List ℚ)) : Bool :=
  match saved_cutoffs, cutoffs with
  | none, _ => true
  | _, none => true
  | some old, some nw =>
    if old.length ≠ nw.length then true
    else if (old.zip nw).any fun pr => decide (pr.1 < pr.2) then true
    else false

/-- `Pysic.set_cutoffs`: save a copy of the individual cutoffs. -/
def set_cutoffs (c : Calc) (cutoffs : Option (List ℚ)) : Calc :=
  { c with saved_cutoffs := cutoffs }

/-- `np.max` over a list of rationals. -/
def np_max (l : List ℚ) : Option ℚ := l.max?

/-- The per-axis thinness test of `Pysic.create_neighbor_lists`.  The code
computes `length = |vec · normal| / sqrt(normal · normal)` with
`normal = o1 x o2` and tests `length < max_cut`; since square roots leave
the rationals, the test is encoded equivalently (for a non-degenerate
axis, `0 < normal · normal`) as
`0 < max_cut` and `(vec · normal)^2 < max_cut^2 * (normal · normal)`;
the theorem `thin_axis_iff_real` below proves this encoding equal to the
real-number comparison of the code. -/
def thin_axis (vec o1 o2 : Vec3) (max_cut : ℚ) : Bool :=
  let normal := cross o1 o2
  decide (0 < max_cut ∧
    dot vec normal * dot vec normal < max_cut * max_cut * dot normal normal)

/-- `Pysic.create_neighbor_lists`: compute the cutoffs if not supplied,
take their maximum, test each of the three cell axes for thinness, and
construct a `FastNeighborList` if the cell is thick enough along every
axis, the brute-force ASE `NeighborList` otherwise.  (The `try` around the
`FastNeighborList` constructor cannot fail in this model, as the
constructor merely stores its arguments.)  Marks the neighbor lists as
waiting and saves the cutoffs. -/
def create_neighbor_lists (c : Calc) (cutoffs : Option (List ℚ)) (marginal : ℚ) :
    Except ErrorKind Calc :=
  let cutoffs' := match cutoffs with
    | none => get_individual_cutoffs c 1
    | some l => some l
  match cutoffs' with
  | none => .error .valueError
  | some cuts =>
    match np_max cuts with
    | none => .error .valueError
    | some max_cut =>
      match c.struct with
      | none => .error .attributeError
      | some s =>
        let fastlist :=
          ! (thin_axis (s.cellVec 0) (s.cellVec 1) (s.cellVec 2) max_cut
              || thin_axis (s.cellVec 1) (s.cellVec 2) (s.cellVec 0) max_cut
              || thin_axis (s.cellVec 2) (s.cellVec 0) (s.cellVec 1) max_cut)
        let nl : NeighborList :=
          { kind := if fastlist then .fast else .ase, cutoffs := cuts,
            skin := marginal, nupdates := 0, positions := [] }
        .ok (set_cutoffs
              { c with neighbor_list := some nl, neighbor_lists_waiting := true }
              (some cuts))

/-- `Pysic.set_potentials`: a `None` argument is ignored; otherwise the
four cached results are invalidated, the neighbor-list bookkeeping flag is
recomputed from the expansion check, and the argument is stored — wrapped
into a one-element list when it is a bare potential rather than a list
(the `assert isinstance(potentials, list)` / `except` wrapping). -/
def set_potentials (c : Calc) (potentials : Option PotArg) : Calc :=
  match potentials with
  | none => c
  | some arg =>
    let c1 := { c with forces := none, energy := none, stress := none,
                       electronegativities := none }
    let new_cutoffs := get_individual_cutoffs c1 1
    let c2 := { c1 with neighbor_lists_waiting :=
                  ! neighbor_lists_expanded c1.saved_cutoffs new_cutoffs }
    match arg with
    | .many ps => { c2 with potentials := some ps }
    | .one p => { c2 with potentials := some [p] }

/-- `Pysic.get_potentials`. -/
def get_potentials (c : Calc) : Option (List Potential) := c.potentials

/-- The structure-change test of `Pysic.set_atoms`:
`self.structure != atoms or (self.structure.get_charges() != atoms.get_charges()).any()`
(with no previously held structure the first disjunct is true and
short-circuits). -/
def structDiffers (old : Option Atoms) (a : Atoms) : Bool :=
  match old with
  | none => true
  | some s => (! aseEq s a) || (! (s.get_charges == a.get_charges))

/-- `Pysic.set_atoms`: ignore a `None` argument; if the given structure
differs by value from the held one (including the charge vector), clear
all four cached results, mark the applicability lists and neighbor lists
stale when species, tags or potentials changed (the `try` block — with no
previous structure the attribute error lands in the `except` branch that
marks both stale), and store a copy of the structure. -/
def set_atoms (c : Calc) (core : CoreMirror) (atoms : Option Atoms) :
    Calc × CoreMirror :=
  match atoms with
  | none => (c, core)
  | some a =>
    if structDiffers c.struct a then
      let c1 := { c with forces := none, energy := none, stress := none,
                         electronegativities := none }
      match c.struct with
      | none =>
          ({ c1 with struct := some a, neighbor_lists_waiting := false },
           { core with potential_lists_ready := false })
      | some old =>
          if old.get_chemical_symbols ≠ a.get_chemical_symbols
              ∨ old.get_tags ≠ a.get_tags
              ∨ core.potentials_ready c.potentials = false then
            ({ c1 with struct := some a, neighbor_lists_waiting := false },
             { core with potential_lists_ready := false })
          else ({ c1 with struct := some a }, core)
    else (c, core)

/-- `Pysic.calculation_required`: a quantity is needed if its cached value
is unknown, and additionally whenever any of the mirror readiness
predicates reports false for the active structure or potentials. -/
def calculation_required (c : Calc) (core : CoreMirror) (quantities : List String) :
    Bool :=
  let do_it := quantities.map fun mark =>
    if mark = "energy" then c.energy.isNone
    else if mark = "forces" then c.forces.isNone
    else if mark = "electronegativities" then c.electronegativities.isNone
    else if mark = "stress" then c.stress.isNone
    else false
  let do_it := do_it ++ (if core.atoms_ready c.struct then [] else [true])
  let do_it := do_it ++ (if core.charges_ready c.struct then [] else [true])
  let do_it := do_it ++ (if core.cell_ready c.struct then [] else [true])
  let do_it := do_it ++ (if core.potentials_ready c.potentials then [] else [true])
  do_it.any id

/-- The distinct ordered permutations of one target tuple,
`set(itertools.permutations(targets))`. -/
def perms_dedup {α : Type} [DecidableEq α] (t : List α) : List (List α) :=
  t.permutations'.dedup

/-- The number of separate engine potentials one `Potential` expands into in
`Pysic.update_core_potentials` (`n_pots`): one per distinct ordered
permutation of each of its symbol, tag and index target tuples. -/
def pot_count (p : Potential) : Nat :=
  (((p.symbols.getD []).map fun t => (perms_dedup t).length).sum)
  + (((p.tags.getD []).map fun t => (perms_dedup t).length).sum)
  + (((p.indices.getD []).map fun t => (perms_dedup t).length).sum)

/-- The `add_potential` calls issued for the symbol-target tuples of one
potential: one per distinct ordered permutation of each tuple. -/
def symbol_adds (gi : Int) (p : Potential) : List ECall :=
  ((p.symbols.getD []).map fun t =>
    (perms_dedup t).map fun perm =>
      ECall.add_potential p.potential_type p.cutoff (some perm) none none gi).flatten

/-- The `add_potential` calls issued for the tag-target tuples of one
potential. -/
def tag_adds (gi : Int) (p : Potential) : List ECall :=
  ((p.tags.getD []).map fun t =>
    (perms_dedup t).map fun perm =>
      ECall.add_potential p.potential_type p.cutoff none (some perm) none gi).flatten

/-- The `add_potential` calls issued for the index-target tuples of one
potential. -/
def index_adds (gi : Int) (p : Potential) : List ECall :=
  ((p.indices.getD []).map fun t =>
    (perms_dedup t).map fun perm =>
      ECall.add_potential p.potential_type p.cutoff none none (some perm) gi).flatten

/-- All `add_potential` calls issued for one potential, in source order:
symbol targets, then tag targets, then index targets. -/
def pot_adds (gi : Int) (p : Potential) : List ECall :=
  symbol_adds gi p ++ tag_adds gi p ++ index_adds gi p

/-- The number of engine bond-order factors one coordinator expands into
(`n_bonds`): one per distinct ordered permutation of each symbol tuple of
each of its bond-order parameters. -/
def coord_bond_count (coord : Coordinator) : Nat :=
  (coord.bond_order_parameters.map fun b =>
    ((b.symbols.map fun t => (perms_dedup t).length).sum)).sum

/-- The `add_bond_order_factor` calls issued for one coordinator. -/
def bond_adds_of_coord (gi : Int) (coord : Coordinator) : List ECall :=
  (coord.bond_order_parameters.map fun b =>
    (b.symbols.map fun t =>
      (perms_dedup t).map fun perm =>
        ECall.add_bond_order_factor b.bond_order_type perm gi).flatten).flatten

/-- `Pysic.update_core_potentials`: mark the applicability lists stale; with
no potentials (or an empty list) allocate zero-size tables and return
early; otherwise count the permutation-expanded potentials, allocate,
issue one `add_potential` per distinct ordered permutation of every target
tuple (symbols, then tags, then indices, per potential), do the same for
the bond-order factors of every coordinator, allocate the bond-order
storage, and record the pushed potentials in the mirror. -/
def update_core_potentials (w : World) : World :=
  let w := { w with core := { w.core with potential_lists_ready := false } }
  match w.cal.potentials with
  | none =>
      { w with engine :=
          w.engine.emitAll [.allocate_potentials 0, .allocate_bond_order_factors 0] }
  | some ps =>
    if ps.isEmpty then
      { w with engine :=
          w.engine.emitAll [.allocate_potentials 0, .allocate_bond_order_factors 0] }
    else
      let n_pots := (ps.map pot_count).sum
      let coord_list := ps.enum.filterMap fun pr =>
        match pr.2.coordinator with
        | some c => some (c, (pr.1 : Int))
        | none => none
      let adds := (ps.enum.map fun pr =>
        pot_adds (if pr.2.coordinator.isSome then (pr.1 : Int) else -1) pr.2).flatten
      let n_bonds := (coord_list.map fun pr => coord_bond_count pr.1).sum
      let bondadds := (coord_list.map fun pr => bond_adds_of_coord pr.2 pr.1).flatten
      { w with
          engine := w.engine.emitAll
            ([ECall.allocate_potentials n_pots] ++ adds
              ++ [ECall.allocate_bond_order_factors n_bonds] ++ bondadds
              ++ [ECall.allocate_bond_order_storage w.engine.n_atoms ps.length
                    coord_list.length]),
          core := w.core.set_potentials (some ps) }

/-- `Pysic.update_core_coulomb`: with an Ewald-mode Coulomb configuration,
check the per-atom scaling factors (defaulting to ones, and rejecting a
length mismatch with `InvalidParametersError`), push the Ewald parameters
and record the configuration in the mirror.  (The k-space truncation
integers computed from the reciprocal cell are arguments of the push that
no claim consumes; the event records the real-space cutoff.) -/
def update_core_coulomb (w : World) : Except ErrorKind World :=
  match w.cal.coulomb with
  | none => .ok w
  | some cl =>
    if cl.method == "ewald" then
      match w.cal.struct with
      | none => .error .attributeError
      | some s =>
        let scales : Option (List ℚ) := match cl.scaling_factors with
          | none => some (List.replicate s.get_number_of_atoms (1 : ℚ))
          | some l => if l.length ≠ s.get_number_of_atoms then none else some l
        match scales with
        | none => .error .invalidParametersError
        | some _ =>
          .ok { w with
                  engine := w.engine.emit (.set_ewald_parameters cl.get_realspace_cutoff),
                  core := w.core.set_coulomb cl }
    else .ok w

/-- `Pysic.update_core_charges`: clear the cached results, push the charge
vector and record it in the mirror. -/
def update_core_charges (w : World) : Except ErrorKind World :=
  match w.cal.struct with
  | none => .error .attributeError
  | some s =>
    let charges := s.get_charges
    .ok { w with
            cal := { w.cal with forces := none, energy := none, stress := none,
                                electronegativities := none },
            engine := w.engine.emit (.update_atom_charges charges),
            core := w.core.set_charges charges }

/-- `Pysic.update_core_supercell`: push the cell and record it in the
mirror, resetting the mirrored neighbor lists. -/
def update_core_supercell (w : World) : Except ErrorKind World :=
  match w.cal.struct with
  | none => .error .attributeError
  | some s =>
    .ok { w with
            engine := w.engine.emit .create_cell,
            core := (w.core.set_cell s).set_neighbor_lists none }

/-- `FastNeighborList.build`: refuse (with the calculator's
`MissingAtomsError`) unless the given atoms agree with the structure
mirrored in the core, both through `atoms_ready` and through the value
comparison `Pysic.core.get_atoms() != atoms`; then have the engine
generate the neighbor lists and read back each atom's neighbors. -/
def fast_build (core : CoreMirror) (eng : Engine) (nl : NeighborList) (atoms : Atoms) :
    Except ErrorKind (NeighborList × Engine) :=
  if ! core.atoms_ready (some atoms) then .error .missingAtomsError
  else if ! (match core.get_atoms with
             | some t => aseEq t atoms
             | none => false) then .error .missingAtomsError
  else
    let eng := eng.emit .generate_neighbor_lists
    let eng := eng.emitAll
      ((List.range atoms.get_number_of_atoms).map fun i => .get_neighbors i)
    .ok ({ nl with positions := atoms.get_positions, nupdates := nl.nupdates + 1 }, eng)

/-- The build step of the brute-force ASE `NeighborList` (external to this
repository): a pure Python all-pairs search with no engine interaction. -/
def ase_build (eng : Engine) (nl : NeighborList) (atoms : Atoms) :
    NeighborList × Engine :=
  ({ nl with positions := atoms.get_positions, nupdates := nl.nupdates + 1 }, eng)

/-- `NeighborList.update` of the external ASE base class: rebuild on the
first call or when the positions changed since the last build (ASE's
actual tolerance — half the skin width — is abstracted to any change, which
no claim depends on); a `FastNeighborList` rebuild goes through
`fast_build`, a brute-force rebuild through `ase_build`. -/
def nbr_update (core : CoreMirror) (eng : Engine) (nl : NeighborList) (atoms : Atoms) :
    Except ErrorKind (NeighborList × Engine) :=
  if nl.nupdates == 0 || ! (nl.positions == atoms.get_positions) then
    match nl.kind with
    | .fast => fast_build core eng nl atoms
    | .ase => .ok (ase_build eng nl atoms)
  else .ok (nl, eng)

/-- `Pysic.update_core_neighbor_lists`: refuse with `MissingAtomsError`
when the mirrored atoms do not match; create the neighbor lists first if
they are not waiting; run the neighbor-list update (which may invoke the
engine through `fast_build`); push the lists atom by atom if the
brute-force ASE list was used (the fast list already updated the engine);
and record the list in the mirror. -/
def update_core_neighbor_lists (w : World) : Except ErrorKind World :=
  if ! w.core.atoms_ready w.cal.struct then .error .missingAtomsError
  else
    let cutoffs := get_individual_cutoffs w.cal 1
    match
      (if ! w.cal.neighbor_lists_waiting then
        match create_neighbor_lists w.cal cutoffs neighbor_marginal with
        | .error e => .error e
        | .ok c => .ok { set_cutoffs c cutoffs with neighbor_lists_waiting := true }
      else .ok w.cal : Except ErrorKind Calc) with
    | .error e => .error e
    | .ok cal1 =>
      match cal1.neighbor_list, cal1.struct with
      | some nl, some s =>
        match nbr_update w.core w.engine nl s with
        | .error e => .error e
        | .ok pr =>
          let eng2 := match pr.1.kind with
            | .fast => pr.2
            | .ase => pr.2.emitAll
                ((List.range s.get_number_of_atoms).map fun i => .create_neighbor_list (i + 1))
          .ok { cal := { cal1 with neighbor_list := some pr.1 },
                core := w.core.set_neighbor_lists (some pr.1),
                engine := eng2 }
      | _, _ => .error .attributeError

/-- `Pysic.update_core_coordinates`: refuse with `LockedCoreError` when the
atom count disagrees with the engine; clear the cached results, push the
positions and momenta and record them in the mirror; create the neighbor
lists if they are not waiting; and always run the neighbor-list update. -/
def update_core_coordinates (w : World) : Except ErrorKind World :=
  match w.cal.struct with
  | none => .error .attributeError
  | some s =>
    if s.get_number_of_atoms ≠ w.engine.n_atoms then .error .lockedCoreError
    else
      let w1 : World :=
        { cal := { w.cal with forces := none, energy := none, stress := none,
                              electronegativities := none },
          engine := w.engine.emit .update_atom_coordinates,
          core := (w.core.set_atomic_positions s).set_atomic_momenta s }
      match
        (if ! w1.cal.neighbor_lists_waiting then
          match create_neighbor_lists w1.cal (get_individual_cutoffs w1.cal 1)
              neighbor_marginal with
          | .error e => .error e
          | .ok c => .ok { w1 with cal := c }
        else .ok w1 : Except ErrorKind World) with
      | .error e => .error e
      | .ok w2 => update_core_neighbor_lists w2

/-- `Pysic.update_core_potential_lists`: refuse with `MissingAtomsError`
when the mirrored atoms do not match; ask the engine to build the
per-atom potential and bond-order-factor applicability lists and mark them
ready. -/
def update_core_potential_lists (w : World) : Except ErrorKind World :=
  if ! w.core.atoms_ready w.cal.struct then .error .missingAtomsError
  else
    .ok { w with
            engine := w.engine.emitAll [.create_potential_list, .create_bond_order_factor_list],
            core := { w.core with potential_lists_ready := true } }

/-- `Pysic.initialize_fortran_core`: push the atoms, distribute the work
across the engine's workers, then push cell, potentials (with the
bond-order tables), neighbor lists, applicability lists and Coulomb
configuration, recording each in the mirror. -/
def initialize_fortran_core (w : World) : Except ErrorKind World :=
  match w.cal.struct with
  | none => .error .attributeError
  | some s =>
    let n := s.get_number_of_atoms
    let w1 : World :=
      { w with engine := { n_atoms := n, trace := w.engine.trace ++ [.create_atoms n] },
               core := w.core.set_atoms s }
    let w2 : World :=
      { w1 with engine := w1.engine.emit (.distribute_mpi n),
                core := { w1.core with mpi_ready := true } }
    match update_core_supercell w2 with
    | .error e => .error e
    | .ok w3 =>
      let w4 := update_core_potentials w3
      match update_core_neighbor_lists w4 with
      | .error e => .error e
      | .ok w5 =>
        match update_core_potential_lists w5 with
        | .error e => .error e
        | .ok w6 => update_core_coulomb w6

/-- The full-reinitialization decision of `Pysic.set_core` (`do_full_init`),
evaluated through the same `elif` chain as the code; `none` models the
attribute error of reading the atom count of an absent structure. -/
def do_full_init (w : World) : Option Bool :=
  if w.cal.force_core_initialization then some true
  else if ! w.core.mpi_ready then some true
  else if w.core.get_atoms = none then some true
  else
    match w.cal.struct, w.core.struct with
    | some s, some t =>
        if s.get_number_of_atoms ≠ t.get_number_of_atoms then some true
        else if s.get_number_of_atoms ≠ w.engine.n_atoms then some true
        else some false
    | _, _ => none

/-- The cell stage of the incremental branch of `Pysic.set_core`. -/
def stage_cell (w : World) : Except ErrorKind World :=
  if ! w.core.cell_ready w.cal.struct then update_core_supercell w else .ok w

/-- The coordinate stage of the incremental branch of `Pysic.set_core`. -/
def stage_coord (w : World) : Except ErrorKind World :=
  if ! w.core.atoms_ready w.cal.struct then update_core_coordinates w else .ok w

/-- The charge stage of the incremental branch of `Pysic.set_core`. -/
def stage_charges (w : World) : Except ErrorKind World :=
  if ! w.core.charges_ready w.cal.struct then update_core_charges w else .ok w

/-- The potential stage of the incremental branch of `Pysic.set_core`. -/
def stage_potentials (w : World) : Except ErrorKind World :=
  if ! w.core.potentials_ready w.cal.potentials then .ok (update_core_potentials w)
  else .ok w

/-- The Coulomb stage of the incremental branch of `Pysic.set_core`. -/
def stage_coulomb (w : World) : Except ErrorKind World :=
  match w.cal.coulomb with
  | none => .ok w
  | some cl =>
      if ! w.core.coulomb_summation_ready cl then update_core_coulomb w else .ok w

/-- The applicability-list stage of the incremental branch of
`Pysic.set_core`. -/
def stage_potential_lists (w : World) : Except ErrorKind World :=
  if ! w.core.potential_lists_ready then update_core_potential_lists w else .ok w

/-- The neighbor-list stage of the incremental branch of `Pysic.set_core`:
recreate the lists if they are not waiting, then push them if the mirror
does not hold them. -/
def stage_neighbor (w : World) : Except ErrorKind World :=
  match
    (if ! w.cal.neighbor_lists_waiting then
      match create_neighbor_lists w.cal (get_individual_cutoffs w.cal 1)
          neighbor_marginal with
      | .error e => .error e
      | .ok c => .ok { w with cal := c }
    else .ok w : Except ErrorKind World) with
  | .error e => .error e
  | .ok w1 =>
    if ! w1.core.neighbor_lists_ready w1.cal.neighbor_list then
      update_core_neighbor_lists w1
    else .ok w1

/-- The incremental branch of `Pysic.set_core`: cell, coordinates, charges,
potentials, Coulomb configuration, applicability lists and neighbor lists,
in this order, each stage pushing only when its readiness predicate is
false. -/
def set_core_incremental (w : World) : Except ErrorKind World :=
  match stage_cell w with
  | .error e => .error e
  | .ok w1 =>
    match stage_coord w1 with
    | .error e => .error e
    | .ok w2 =>
      match stage_charges w2 with
      | .error e => .error e
      | .ok w3 =>
        match stage_potentials w3 with
        | .error e => .error e
        | .ok w4 =>
          match stage_coulomb w4 with
          | .error e => .error e
          | .ok w5 =>
            match stage_potential_lists w5 with
            | .error e => .error e
            | .ok w6 => stage_neighbor w6

/-- `Pysic.set_core`: fully reinitialize the engine when forced, when the
worker distribution never completed, when the mirror holds no atoms or
when the atom count disagrees with the mirror or the engine; otherwise
synchronize incrementally. -/
def set_core (w : World) : Except ErrorKind World :=
  match do_full_init w with
  | none => .error .attributeError
  | some true => initialize_fortran_core w
  | some false => set_core_incremental w

/-- `Pysic.calculate_energy`: synchronize the core, then have the engine
compute the energy for its atom count and cache the result.  (The
charge-relaxation hook is an external collaborator and contributes no
engine call of this model.) -/
def calculate_energy (w : World) : Except ErrorKind World :=
  match set_core w with
  | .error e => .error e
  | .ok w1 =>
    .ok { w1 with engine := w1.engine.emit (.calc_energy w1.engine.n_atoms),
                  cal := { w1.cal with energy := some () } }

/-- Is an engine call an `add_potential` registration? -/
def isAddPotential : ECall → Bool
  | .add_potential .. => true
  | _ => false

/-- Is an engine call part of the potential table push
(`allocate_potentials` or `add_potential`)? -/
def isPotentialTableCall : ECall → Bool
  | .allocate_potentials _ => true
  | .add_potential .. => true
  | _ => false

/-- Is an engine call part of the bond-order table push
(`allocate_bond_order_factors`, `add_bond_order_factor` or
`allocate_bond_order_storage`)? -/
def isBondTableCall : ECall → Bool
  | .allocate_bond_order_factors _ => true
  | .add_bond_order_factor .. => true
  | .allocate_bond_order_storage .. => true
  | _ => false

/-- Is an engine call part of the neighbor-list push? -/
def isNeighborCall : ECall → Bool
  | .generate_neighbor_lists => true
  | .get_neighbors _ => true
  | .create_neighbor_list _ => true
  | _ => false

/-- Is an engine call the Ewald (Coulomb configuration) push? -/
def isEwaldCall : ECall → Bool
  | .set_ewald_parameters _ => true
  | _ => false

/-- Is an engine call a compute call? -/
def isComputeCall : ECall → Bool
  | .calc_energy _ => true
  | .calc_forces _ => true
  | .calc_electronegativities _ => true
  | _ => false

/-- The bond-order cutoff candidates one potential contributes for an atom
of a given species in `Pysic.get_individual_cutoffs`: the cutoffs of the
bond-order parameters of its coordinator whose symbols contain the
species.  (The code contributes these for every potential, matching or
not.) -/
def bond_cuts (p : Potential) (symbol : String) : List ℚ :=
  match p.coordinator with
  | none => []
  | some coord =>
      ((coord.bond_order_parameters.filter fun b =>
          decide (0 < b.get_different_symbols.count symbol)).map (·.cutoff))

/-- All cutoff candidates the potential list contributes for one atom in
`Pysic.get_individual_cutoffs`: the cutoff of each active potential, and
the species-matching bond-order cutoffs of each potential's coordinator
(whether or not that potential is active for the atom). -/
def cutoff_candidates (ps : List Potential) (symbol : String) (tag : Int)
    (index : Nat) : List ℚ :=
  (ps.map fun p =>
    (if pot_active p symbol tag index then [p.cutoff] else []) ++ bond_cuts p symbol).flatten

/-- The per-atom cutoff as claim C8 words it: the maximum over the Coulomb
real-space cutoff (if configured), the cutoffs of the active potentials,
and the bond-order cutoffs — but the latter only from potentials that are
themselves active for the atom.  This definition follows the claim's words,
for comparison against the code's `get_individual_cutoffs`. -/
def claim_stated_cutoff (c : Calc) (ps : List Potential) (symbol : String)
    (tag : Int) (index : Nat) : ℚ :=
  ((ps.map fun p =>
      if pot_active p symbol tag index then [p.cutoff] ++ bond_cuts p symbol
      else []).flatten).foldl max (coulomb_init c)

/-- A default atom, for index lookups in theorem statements. -/
def defaultAtom : AtomDatum :=
  { symbol := "", tag := 0, position := ⟨0, 0, 0⟩, momentum := ⟨0, 0, 0⟩,
    mass := 0, charge := 0 }

/-- The atom of a structure at a given index (default atom out of range). -/
def Atoms.atomAt (s : Atoms) (i : Nat) : AtomDatum := s.atoms.getD i defaultAtom

/-- A hydrogen test atom at the origin. -/
def exAtomH : AtomDatum :=
  { symbol := "H", tag := 0, position := ⟨0, 0, 0⟩, momentum := ⟨0, 0, 0⟩,
    mass := 1, charge := 0 }

/-- A one-atom test structure in a cubic 10-unit cell. -/
def exStruct : Atoms :=
  { atoms := [exAtomH], cell0 := ⟨10, 0, 0⟩, cell1 := ⟨0, 10, 0⟩,
    cell2 := ⟨0, 0, 10⟩, pbc := (true, true, true) }

/-- The same structure with the atom moved: differs from `exStruct` by
value. -/
def exAtomsB : Atoms :=
  { exStruct with atoms := [{ exAtomH with position := ⟨1, 0, 0⟩ }] }

/-- A freshly constructed calculator holding nothing. -/
def emptyCalc : Calc :=
  { struct := none, potentials := none, coulomb := none, charge_relaxation := none,
    neighbor_list := none, saved_cutoffs := none, neighbor_lists_waiting := false,
    force_core_initialization := false, forces := none, energy := none,
    stress := none, electronegativities := none }

/-- An Ewald Coulomb configuration with real-space cutoff 4. -/
def exCoulomb4 : CoulombSummation :=
  { method := "ewald", real_cutoff := 4, k_cutoff := 1, sigma := 1, epsilon := 1,
    scaling_factors := none }

/-- Structure plus Coulomb scheme but a `None` potential list. -/
def exCalc9 : Calc := { emptyCalc with struct := some exStruct, coulomb := some exCoulomb4 }

/-- A bond-order parameter targeting H with cutoff 5. -/
def exBondHH : BondOrderParameters :=
  { bond_order_type := "coordination", symbols := [["H", "H"]], cutoff := 5,
    soft_cutoff := 5, parameters_as_list := [] }

/-- A potential targeting only O-O pairs (so never the H atom of
`exStruct`), with cutoff 1, carrying `exBondHH` in its coordinator. -/
def exPotOO : Potential :=
  { potential_type := "LJ", parameter_values := [1, 1], cutoff := 1, soft_cutoff := 1,
    n_targets := 2, symbols := some [["O", "O"]], tags := none, indices := none,
    coordinator := some { bond_order_parameters := [exBondHH] } }

/-- The H structure together with the O-O potential. -/
def exCalc8 : Calc := { emptyCalc with struct := some exStruct, potentials := some [exPotOO] }

/-- A calculator with all four results cached for `exStruct`. -/
def exCalc7 : Calc :=
  { emptyCalc with
      struct := some exStruct,
      energy := some (),
      forces := some (),
      stress := some (),
      electronegativities := some () }

/-- A thin-slab structure: 2 units thick along the first axis. -/
def exThinStruct : Atoms :=
  { atoms := [exAtomH], cell0 := ⟨2, 0, 0⟩, cell1 := ⟨0, 10, 0⟩,
    cell2 := ⟨0, 0, 10⟩, pbc := (true, true, true) }

/-- The thin-slab structure assigned to a calculator. -/
def exCalc3 : Calc := { emptyCalc with struct := some exThinStruct }

/-- A mirror that holds `exStruct`. -/
def exCoreC2 : CoreMirror := { CoreMirror.init with struct := some exStruct }

/-- A one-atom engine with an empty trace. -/
def exEngine1 : Engine := { n_atoms := 1, trace := [] }

/-- A fresh fast neighbor list. -/
def exNlC2 : NeighborList :=
  { kind := .fast, cutoffs := [3], skin := neighbor_marginal, nupdates := 0,
    positions := [] }

/-- A pair potential on the symbol tuple (H, O) with no coordinator. -/
def exPotAB : Potential :=
  { potential_type := "LJ2", parameter_values := [1], cutoff := 2, soft_cutoff := 2,
    n_targets := 2, symbols := some [["H", "O"]], tags := none, indices := none,
    coordinator := none }

/-- A world holding the (H, O) potential. -/
def exW4 : World :=
  { cal := { emptyCalc with struct := some exStruct, potentials := some [exPotAB] },
    core := CoreMirror.init, engine := { n_atoms := 1, trace := [] } }

/-- A neighbor list that has been built once for `exStruct`. -/
def exNlBuilt : NeighborList :=
  { kind := .fast, cutoffs := [0], skin := 0, nupdates := 1,
    positions := exStruct.get_positions }

/-- A world that forces full reinitialization of a one-atom structure
(with an already-built neighbor list, so no rebuild is needed). -/
def exW1 : World :=
  { cal := { emptyCalc with
      struct := some exStruct,
      force_core_initialization := true,
      neighbor_list := some exNlBuilt,
      neighbor_lists_waiting := true,
      saved_cutoffs := some [0] },
    core := CoreMirror.init, engine := { n_atoms := 0, trace := [] } }

/-- A mirror fully agreeing with `exStruct` and `exNlBuilt`. -/
def exSyncedCore : CoreMirror :=
  { struct := some exStruct,
    cell := some (exStruct.cell0, exStruct.cell1, exStruct.cell2, exStruct.pbc),
    potentials := some none, coulomb := none, neighbor_lists := some exNlBuilt,
    potential_lists_ready := true, mpi_ready := true }

/-- A world in which every readiness predicate holds, so that incremental
synchronization pushes nothing. -/
def exSyncedCal : Calc :=
  { emptyCalc with
      struct := some exStruct,
      neighbor_list := some exNlBuilt,
      neighbor_lists_waiting := true,
      saved_cutoffs := some [0] }

/-- A world in which every readiness predicate holds, so that incremental
synchronization pushes nothing. -/
def exSynced : World :=
  { cal := exSyncedCal, core := exSyncedCore, engine := { n_atoms := 1, trace := [] } }

/-- The full-reinitialization condition of claim C1: forced mode, or worker
distribution never completed, or no mirrored atoms, or an atom-count
mismatch against the mirror or the engine. -/
def FullReinitConditions (w : World) (s : Atoms) : Prop :=
  w.cal.force_core_initialization = true ∨ w.core.mpi_ready = false
    ∨ w.core.struct = none
    ∨ (∃ t, w.core.struct = some t
          ∧ s.get_number_of_atoms ≠ t.get_number_of_atoms)
    ∨ s.get_number_of_atoms ≠ w.engine.n_atoms

/-- The push order of a full reinitialization, as the code performs it:
atoms, worker distribution, cell, the potential table, the bond-order
tables, the neighbor lists, the applicability lists, the Coulomb
configuration, and only then the compute call. -/
def FullReinitTrace (w w2 : World) (s : Atoms) : Prop :=
  ∃ tPot tBond tNbr tCoul,
    w2.engine.trace = w.engine.trace
      ++ [ECall.create_atoms s.get_number_of_atoms,
          ECall.distribute_mpi s.get_number_of_atoms, ECall.create_cell]
      ++ tPot ++ tBond ++ tNbr
      ++ [ECall.create_potential_list, ECall.create_bond_order_factor_list]
      ++ tCoul ++ [ECall.calc_energy w2.engine.n_atoms]
    ∧ (∀ e ∈ tPot, isPotentialTableCall e = true)
    ∧ (∀ e ∈ tBond, isBondTableCall e = true)
    ∧ (∀ e ∈ tNbr, isNeighborCall e = true)
    ∧ (∀ e ∈ tCoul, isEwaldCall e = true)

/-- The behavior of the incremental branch of `set_core` stated by claim
C5: the seven stages run in their fixed order, each pushes only when its
readiness predicate reports false, and a push of coordinates carries a
neighbor-list update as a side effect. -/
def IncrementalOrdered (w w7 : World) : Prop :=
  ∃ w1 w2 w3 w4 w5 w6,
    stage_cell w = Except.ok w1 ∧ stage_coord w1 = Except.ok w2
    ∧ stage_charges w2 = Except.ok w3 ∧ stage_potentials w3 = Except.ok w4
    ∧ stage_coulomb w4 = Except.ok w5 ∧ stage_potential_lists w5 = Except.ok w6
    ∧ stage_neighbor w6 = Except.ok w7
    ∧ (w.core.cell_ready w.cal.struct = true → w1 = w)
    ∧ (w.core.cell_ready w.cal.struct = false →
        w1.engine.trace = w.engine.trace ++ [ECall.create_cell])
    ∧ (w1.core.atoms_ready w1.cal.struct = true → w2 = w1)
    ∧ (w1.core.atoms_ready w1.cal.struct = false →
        ∃ t, w2.engine.trace = w1.engine.trace ++ ECall.update_atom_coordinates :: t
          ∧ (∀ e ∈ t, isNeighborCall e = true)
          ∧ w2.core.neighbor_lists = w2.cal.neighbor_list)
    ∧ (w2.core.charges_ready w2.cal.struct = true → w3 = w2)
    ∧ (w2.core.charges_ready w2.cal.struct = false →
        ∃ ch, w3.engine.trace = w2.engine.trace ++ [ECall.update_atom_charges ch])
    ∧ (w3.core.potentials_ready w3.cal.potentials = true → w4 = w3)
    ∧ (w3.core.potentials_ready w3.cal.potentials = false →
        ∃ tA tB, w4.engine.trace = w3.engine.trace ++ tA ++ tB
          ∧ (∀ e ∈ tA, isPotentialTableCall e = true)
          ∧ (∀ e ∈ tB, isBondTableCall e = true))
    ∧ ((∀ cl, w4.cal.coulomb = some cl → w4.core.coulomb_summation_ready cl = true) →
        w5 = w4)
    ∧ (∃ t, w5.engine.trace = w4.engine.trace ++ t ∧ ∀ e ∈ t, isEwaldCall e = true)
    ∧ (w5.core.potential_lists_ready = true → w6 = w5)
    ∧ (w5.core.potential_lists_ready = false →
        w6.engine.trace = w5.engine.trace
          ++ [ECall.create_potential_list, ECall.create_bond_order_factor_list])
    ∧ (w6.core.neighbor_lists_ready w6.cal.neighbor_list = true
          ∧ w6.cal.neighbor_lists_waiting = true → w7 = w6)
    ∧ (∃ t, w7.engine.trace = w6.engine.trace ++ t ∧ ∀ e ∈ t, isNeighborCall e = true)

/-- The selection property of claim C3: building the neighbor lists
succeeds and chooses the brute-force strategy exactly when some axis of
the cell is thinner (projection of the lattice vector onto the normal of
the plane of the other two, a real-number quantity) than the largest
per-atom cutoff. -/
def ThinSlabSelects (c : Calc) (s : Atoms) (cuts : List ℚ) (marginal mc : ℚ) : Prop :=
  ∃ c2 nl, create_neighbor_lists c (some cuts) marginal = Except.ok c2
    ∧ c2.neighbor_list = some nl
    ∧ (nl.kind = NbrKind.ase ↔ ∃ i : Fin 3,
        ((|dot (s.cellVec i) (cross (s.cellVec (i + 1)) (s.cellVec (i + 2)))| : ℚ) : ℝ)
            / Real.sqrt ((dot (cross (s.cellVec (i + 1)) (s.cellVec (i + 2)))
                (cross (s.cellVec (i + 1)) (s.cellVec (i + 2))) : ℚ) : ℝ)
          < (mc : ℝ))

/-- The maximum characterization of claim C8 (amended): the cutoff entry of
atom `i` is the scaled maximum of the Coulomb initial value and the
candidate cutoffs (active potentials, and species-matching bond-order
parameters of every potential). -/
def CutoffIsCandidateMax (c : Calc) (s : Atoms) (ps : List Potential) (scaler : ℚ)
    (i : Nat) : Prop :=
  ∃ l M, get_individual_cutoffs c scaler = some l
    ∧ l.length = s.get_number_of_atoms
    ∧ l.getD i 0 = M * scaler
    ∧ coulomb_init c ≤ M
    ∧ (∀ x ∈ cutoff_candidates ps (s.atomAt i).symbol (s.atomAt i).tag i, x ≤ M)
    ∧ (M = coulomb_init c
        ∨ M ∈ cutoff_candidates ps (s.atomAt i).symbol (s.atomAt i).tag i)

theorem step_eq_max (m q : ℚ) (a : Bool) :
    (if a && decide (m < q) then q else m) = if a then max m q else m := by
  cases a with
  | false => simp
  | true =>
    rcases lt_or_le m q with h | h
    · simp [h, max_eq_right h.le]
    · simp [not_lt.mpr h, max_eq_left h]

theorem foldl_bond_filter (pb : BondOrderParameters → Bool)
    (l : List BondOrderParameters) (m : ℚ) :
    l.foldl (fun m b => if pb b && decide (m < b.cutoff) then b.cutoff else m) m
      = ((l.filter pb).map (·.cutoff)).foldl max m := by
  induction l generalizing m with
  | nil => rfl
  | cons b t ih =>
    show List.foldl _ (if pb b && decide (m < b.cutoff) then b.cutoff else m) t = _
    rw [step_eq_max]
    by_cases hb : pb b = true
    · simp only [hb, if_true, List.filter_cons, List.map_cons, List.foldl_cons]
      exact ih (max m b.cutoff)
    · simp only [hb, if_false, List.filter_cons, Bool.false_eq_true]
      exact ih m

theorem bond_loop_eq (p : Potential) (sym : String) (m : ℚ) :
    bond_loop p sym m = (bond_cuts p sym).foldl max m := by
  unfold bond_loop bond_cuts
  cases p.coordinator with
  | none => rfl
  | some coord => exact foldl_bond_filter _ _ m

theorem atomMaxCut_eq_foldl_max (c : Calc) (ps : List Potential) (sym : String)
    (tg : Int) (idx : Nat) :
    atomMaxCut c ps sym tg idx
      = (cutoff_candidates ps sym tg idx).foldl max (coulomb_init c) := by
  unfold atomMaxCut cutoff_candidates
  generalize coulomb_init c = m
  induction ps generalizing m with
  | nil => rfl
  | cons p t ih =>
    simp only [List.foldl_cons, List.map_cons, List.flatten_cons, List.foldl_append]
    rw [bond_loop_eq, step_eq_max]
    by_cases ha : pot_active p sym tg idx = true
    · simp only [ha, if_true, List.foldl_cons, List.foldl_nil]
      exact ih (List.foldl max (max m p.cutoff) (bond_cuts p sym))
    · simp only [ha, Bool.false_eq_true, if_false, List.nil_append, List.foldl_nil]
      exact ih (List.foldl max m (bond_cuts p sym))

theorem le_foldl_max (l : List ℚ) (m : ℚ) : m ≤ l.foldl max m := by
  induction l generalizing m with
  | nil => exact le_refl m
  | cons a t ih => exact le_trans (le_max_left m a) (ih (max m a))

theorem mem_le_foldl_max (l : List ℚ) (m x : ℚ) (hx : x ∈ l) :
    x ≤ l.foldl max m := by
  induction l generalizing m with
  | nil => cases hx
  | cons a t ih =>
    rcases List.mem_cons.mp hx with h | h
    · subst h
      exact le_trans (le_max_right m x) (le_foldl_max t (max m x))
    · exact ih (max m a) h

theorem foldl_max_mem (l : List ℚ) (m : ℚ) :
    l.foldl max m = m ∨ l.foldl max m ∈ l := by
  induction l generalizing m with
  | nil => exact Or.inl rfl
  | cons a t ih =>
    rw [List.foldl_cons]
    rcases ih (max m a) with h | h
    · rcases max_choice m a with hm | hm
      · left
        rw [h, hm]
      · right
        rw [h, hm]
        exact List.mem_cons_self a t
    · right
      exact List.mem_cons_of_mem a h

/-- Claim C6: `neighbor_lists_expanded` reports a needed rebuild exactly
when no cutoffs were previously recorded, or the old and new sequences
have different lengths, or some atom's new cutoff strictly exceeds its
previously recorded value. -/
theorem neighbor_lists_expanded_iff (saved : Option (List ℚ)) (nw : List ℚ) :
    neighbor_lists_expanded saved (some nw) = true ↔
      saved = none ∨ ∃ old, saved = some old ∧
        (old.length ≠ nw.length ∨ ∃ pr ∈ old.zip nw, pr.1 < pr.2) := by
  cases saved with
  | none => simp [neighbor_lists_expanded]
  | some old =>
    by_cases h : old.length = nw.length
    · simp [neighbor_lists_expanded, h, List.any_eq_true]
    · simp [neighbor_lists_expanded, h]

/-- Claim C10: `set_potentials` stores a bare potential object wrapped into
a one-element list and stores a list argument as given; `get_potentials`
then returns exactly that. -/
theorem set_potentials_wraps (c : Calc) (p : Potential) (ps : List Potential) :
    get_potentials (set_potentials c (some (PotArg.one p))) = some [p]
    ∧ get_potentials (set_potentials c (some (PotArg.many ps))) = some ps :=
  ⟨rfl, rfl⟩

/-- Claim C9 (amended): `get_individual_cutoffs` returns nothing without a
structure; with a structure but a `None` potential list it returns a
constant list — zero without a Coulomb scheme, the raw (unscaled) Coulomb
real-space cutoff with one; and when a potential list is configured every
entry is scaled by the caller-supplied multiplier. -/
theorem get_individual_cutoffs_shape (c : Calc) (s : Atoms) (scaler : ℚ) :
    (c.struct = none → get_individual_cutoffs c scaler = none)
    ∧ (c.struct = some s → c.potentials = none → c.coulomb = none →
        get_individual_cutoffs c scaler
          = some (List.replicate s.get_number_of_atoms 0))
    ∧ (∀ cl, c.struct = some s → c.potentials = none → c.coulomb = some cl →
        get_individual_cutoffs c scaler
          = some (List.replicate s.get_number_of_atoms cl.get_realspace_cutoff))
    ∧ (∀ ps, c.potentials = some ps →
        get_individual_cutoffs c scaler
          = (get_individual_cutoffs c 1).map fun l => l.map (· * scaler)) := by
  refine ⟨?_, ?_, ?_, ?_⟩
  · intro h
    simp [get_individual_cutoffs, h]
  · intro h1 h2 h3
    simp [get_individual_cutoffs, h1, h2, h3]
  · intro cl h1 h2 h3
    simp [get_individual_cutoffs, h1, h2, h3]
  · intro ps hp
    cases hst : c.struct with
    | none => simp [get_individual_cutoffs, hst]
    | some s2 =>
      simp [get_individual_cutoffs, hst, hp, List.map_map, Function.comp, mul_one]

/-- Claim C9 witness: the three shapes at concrete inputs. -/
theorem get_individual_cutoffs_shape_witness :
    get_individual_cutoffs emptyCalc 2 = none
    ∧ get_individual_cutoffs exCalc9 2 = some [4]
    ∧ get_individual_cutoffs exCalc8 2
        = (get_individual_cutoffs exCalc8 1).map fun l => l.map (· * 2) :=
  ⟨(get_individual_cutoffs_shape emptyCalc exStruct 2).1 rfl,
   by
     have h := (get_individual_cutoffs_shape exCalc9 exStruct 2).2.2.1 exCoulomb4 rfl rfl rfl
     simpa using h,
   (get_individual_cutoffs_shape exCalc8 exStruct 2).2.2.2 [exPotOO] rfl⟩

/-- Claim C9 counterexample: with a `None` potential list and a Coulomb
scheme, the returned entry is the raw real-space cutoff, not the entry
scaled by the caller-supplied multiplier (4 stands where scaling by 1/2
would demand 2). -/
theorem get_individual_cutoffs_unscaled_cex :
    get_individual_cutoffs exCalc9 (1/2) = some [4]
    ∧ (4 : ℚ) * (1/2) = 2
    ∧ get_individual_cutoffs exCalc9 (1/2) ≠ some [(4 : ℚ) * (1/2)] := by
  have h2 : (4 : ℚ) * (1/2) = 2 := by norm_num
  refine ⟨by decide, h2, ?_⟩
  rw [h2]
  decide

/-- Claim C2 (amended): building the fast neighbor list against atoms that
do not match the structure mirrored in the core fails with
`MissingAtomsError` — the code reuses the missing-atoms error kind for
mismatches — and the error propagates unchanged through the neighbor-list
update that invokes the build, with no engine call issued and no retry. -/
theorem fast_build_mismatch (core : CoreMirror) (eng : Engine) (nl : NeighborList)
    (a : Atoms)
    (hmis : (match core.get_atoms with
             | some t => aseEq t a
             | none => false) = false) :
    fast_build core eng nl a = .error .missingAtomsError
    ∧ (nl.kind = NbrKind.fast → nl.nupdates = 0 →
        nbr_update core eng nl a = .error .missingAtomsError) := by
  have hb : fast_build core eng nl a = .error .missingAtomsError := by
    unfold fast_build
    by_cases hr : core.atoms_ready (some a) = true
    · simp [hr, hmis]
    · simp [hr]
  refine ⟨hb, fun hk hn => ?_⟩
  unfold nbr_update
  simp [hn, hk, hb]

/-- Claim C2 witness: a concrete mismatched build fails and propagates. -/
theorem fast_build_mismatch_witness :
    fast_build exCoreC2 exEngine1 exNlC2 exAtomsB = .error .missingAtomsError
    ∧ (exNlC2.kind = NbrKind.fast → exNlC2.nupdates = 0 →
        nbr_update exCoreC2 exEngine1 exNlC2 exAtomsB = .error .missingAtomsError) :=
  fast_build_mismatch exCoreC2 exEngine1 exNlC2 exAtomsB (by decide)

/-- Claim C2 counterexample: at a concrete mismatched input the build fails
with `MissingAtomsError`, which is not the `StructureMismatchError` kind
the claim names. -/
theorem fast_build_error_kind_cex :
    fast_build exCoreC2 exEngine1 exNlC2 exAtomsB = .error .missingAtomsError
    ∧ ErrorKind.missingAtomsError ≠ ErrorKind.structureMismatchError :=
  ⟨by decide, by decide⟩

/-- Claim C7: assigning a structure that differs by value from the held one
(including a differing charge vector) sets all four cached quantities to
unknown, and `calculation_required` subsequently reports true for each of
the four result kinds, whatever the mirror state. -/
theorem set_atoms_invalidates (c : Calc) (core core2 : CoreMirror) (a : Atoms)
    (q : String) (hdiff : structDiffers c.struct a = true)
    (hq : q = "energy" ∨ q = "forces" ∨ q = "stress" ∨ q = "electronegativities") :
    ((set_atoms c core (some a)).1.energy = none
      ∧ (set_atoms c core (some a)).1.forces = none
      ∧ (set_atoms c core (some a)).1.stress = none
      ∧ (set_atoms c core (some a)).1.electronegativities = none)
    ∧ calculation_required (set_atoms c core (some a)).1 core2 [q] = true := by
  have hmain : (set_atoms c core (some a)).1.energy = none
      ∧ (set_atoms c core (some a)).1.forces = none
      ∧ (set_atoms c core (some a)).1.stress = none
      ∧ (set_atoms c core (some a)).1.electronegativities = none := by
    cases hst : c.struct with
    | none => simp [set_atoms, structDiffers, hst]
    | some old =>
      rw [hst] at hdiff
      simp only [set_atoms, hst, hdiff, if_true]
      split <;> simp
  obtain ⟨h1, h2, h3, h4⟩ := hmain
  refine ⟨⟨h1, h2, h3, h4⟩, ?_⟩
  generalize hgen : (set_atoms c core (some a)).1 = c2 at h1 h2 h3 h4 ⊢
  rcases hq with h | h | h | h <;> subst h <;>
    simp [calculation_required, h1, h2, h3, h4]

/-- Claim C7 witness: caching then changing the structure by one position
invalidates, and the energy is reported as needed again. -/
theorem set_atoms_invalidates_witness :
    ((set_atoms exCalc7 CoreMirror.init (some exAtomsB)).1.energy = none
      ∧ (set_atoms exCalc7 CoreMirror.init (some exAtomsB)).1.forces = none
      ∧ (set_atoms exCalc7 CoreMirror.init (some exAtomsB)).1.stress = none
      ∧ (set_atoms exCalc7 CoreMirror.init (some exAtomsB)).1.electronegativities = none)
    ∧ calculation_required (set_atoms exCalc7 CoreMirror.init (some exAtomsB)).1
        CoreMirror.init ["energy"] = true :=
  set_atoms_invalidates exCalc7 CoreMirror.init CoreMirror.init exAtomsB "energy"
    (by decide) (Or.inl rfl)

/-- Claim C8 (amended): with a structure and a potential list, the cutoff
entry of each atom is the scaled maximum over the Coulomb initial value,
the cutoffs of the potentials targeting the atom, and the species-matching
bond-order cutoffs of every potential's coordinator (matching or not). -/
theorem get_individual_cutoffs_is_max (c : Calc) (s : Atoms) (ps : List Potential)
    (scaler : ℚ) (i : Nat) (hi : i < s.get_number_of_atoms)
    (hs : c.struct = some s) (hp : c.potentials = some ps) :
    CutoffIsCandidateMax c s ps scaler i := by
  have hi2 : i < s.atoms.length := hi
  have hlen : (s.atoms.enum.map fun pr =>
      atomMaxCut c ps pr.2.symbol pr.2.tag pr.1 * scaler).length
        = s.get_number_of_atoms := by
    simp [Atoms.get_number_of_atoms]
  refine ⟨s.atoms.enum.map fun pr => atomMaxCut c ps pr.2.symbol pr.2.tag pr.1 * scaler,
    atomMaxCut c ps (s.atomAt i).symbol (s.atomAt i).tag i, ?_, ?_, ?_, ?_, ?_, ?_⟩
  · simp [get_individual_cutoffs, hs, hp]
  · exact hlen
  · have hi3 : i < (s.atoms.enum.map fun pr =>
        atomMaxCut c ps pr.2.symbol pr.2.tag pr.1 * scaler).length := by
      rw [hlen]
      exact hi
    have hat : s.atomAt i = s.atoms[i] := List.getD_eq_getElem _ _ hi2
    rw [List.getD_eq_getElem _ _ hi3, hat]
    simp [List.getElem_map, List.getElem_enum]
  · rw [atomMaxCut_eq_foldl_max]
    exact le_foldl_max _ _
  · intro x hx
    rw [atomMaxCut_eq_foldl_max]
    exact mem_le_foldl_max _ _ _ hx
  · rw [atomMaxCut_eq_foldl_max]
    exact foldl_max_mem _ _

/-- Claim C8 witness: the maximum characterization at the concrete H-atom
structure with the O-O potential. -/
theorem get_individual_cutoffs_is_max_witness :
    CutoffIsCandidateMax exCalc8 exStruct [exPotOO] (1/2) 0 :=
  get_individual_cutoffs_is_max exCalc8 exStruct [exPotOO] (1/2) 0 (by decide) rfl rfl

/-- Claim C8 counterexample: the code counts the bond-order cutoff 5 of a
potential that does not target the H atom, while the claim's wording
(bond-order parameters only inside a matching potential's coordinator)
yields 0. -/
theorem get_individual_cutoffs_bond_gate_cex :
    get_individual_cutoffs exCalc8 1 = some [5]
    ∧ claim_stated_cutoff exCalc8 [exPotOO] "H" 0 0 = 0
    ∧ get_individual_cutoffs exCalc8 1
        ≠ some [claim_stated_cutoff exCalc8 [exPotOO] "H" 0 0] := by
  have hamc : atomMaxCut exCalc8 [exPotOO] "H" 0 0 = 5 := by decide
  have hmap : get_individual_cutoffs exCalc8 1
      = some [atomMaxCut exCalc8 [exPotOO] "H" 0 0 * 1] := rfl
  have hcs : claim_stated_cutoff exCalc8 [exPotOO] "H" 0 0 = 0 := by decide
  refine ⟨?_, hcs, ?_⟩
  · rw [hmap, hamc]
    norm_num
  · rw [hmap, hamc, hcs]
    norm_num

theorem thin_axis_iff_real (vec o1 o2 : Vec3) (mc : ℚ)
    (hnn : 0 < dot (cross o1 o2) (cross o1 o2)) :
    thin_axis vec o1 o2 mc = true ↔
      ((|dot vec (cross o1 o2)| : ℚ) : ℝ)
          / Real.sqrt ((dot (cross o1 o2) (cross o1 o2) : ℚ) : ℝ) < (mc : ℝ) := by
  have hN : (0 : ℝ) < ((dot (cross o1 o2) (cross o1 o2) : ℚ) : ℝ) := by
    exact_mod_cast hnn
  have hsq : 0 < Real.sqrt ((dot (cross o1 o2) (cross o1 o2) : ℚ) : ℝ) :=
    Real.sqrt_pos.mpr hN
  rw [thin_axis, decide_eq_true_eq, div_lt_iff hsq]
  have habs : ((|dot vec (cross o1 o2)| : ℚ) : ℝ)
      = |((dot vec (cross o1 o2) : ℚ) : ℝ)| := by
    push_cast
    rfl
  rw [habs]
  constructor
  · rintro ⟨hc, hlt⟩
    have hC : (0 : ℝ) < (mc : ℝ) := by exact_mod_cast hc
    have hltR : ((dot vec (cross o1 o2) : ℚ) : ℝ) * ((dot vec (cross o1 o2) : ℚ) : ℝ)
        < ((mc : ℚ) : ℝ) * ((mc : ℚ) : ℝ)
            * ((dot (cross o1 o2) (cross o1 o2) : ℚ) : ℝ) := by
      exact_mod_cast hlt
    have h1 : |((dot vec (cross o1 o2) : ℚ) : ℝ)|
        = Real.sqrt (((dot vec (cross o1 o2) : ℚ) : ℝ)
            * ((dot vec (cross o1 o2) : ℚ) : ℝ)) :=
      (Real.sqrt_mul_self_eq_abs _).symm
    have h2 : (mc : ℝ) * Real.sqrt ((dot (cross o1 o2) (cross o1 o2) : ℚ) : ℝ)
        = Real.sqrt ((mc : ℝ) * (mc : ℝ)
            * ((dot (cross o1 o2) (cross o1 o2) : ℚ) : ℝ)) := by
      rw [Real.sqrt_mul (mul_self_nonneg _), Real.sqrt_mul_self hC.le]
    rw [h1, h2]
    exact Real.sqrt_lt_sqrt (mul_self_nonneg _) hltR
  · intro h
    have hCs : 0 < (mc : ℝ) * Real.sqrt ((dot (cross o1 o2) (cross o1 o2) : ℚ) : ℝ) :=
      lt_of_le_of_lt (abs_nonneg _) h
    have hC : (0 : ℝ) < (mc : ℝ) := by
      rcases mul_pos_iff.mp hCs with ⟨h1, _⟩ | ⟨_, h2⟩
      · exact h1
      · exact absurd hsq (not_lt.mpr h2.le)
    refine ⟨by exact_mod_cast hC, ?_⟩
    have hsqlt := mul_self_lt_mul_self (abs_nonneg _) h
    rw [abs_mul_abs_self] at hsqlt
    have hexp : ((mc : ℝ) * Real.sqrt ((dot (cross o1 o2) (cross o1 o2) : ℚ) : ℝ))
        * ((mc : ℝ) * Real.sqrt ((dot (cross o1 o2) (cross o1 o2) : ℚ) : ℝ))
        = (mc : ℝ) * (mc : ℝ) * ((dot (cross o1 o2) (cross o1 o2) : ℚ) : ℝ) := by
      rw [mul_mul_mul_comm, Real.mul_self_sqrt hN.le]
    rw [hexp] at hsqlt
    exact_mod_cast hsqlt

/-- Claim C3: `create_neighbor_lists` computes the thickness of each cell
axis as the projection of the lattice vector onto the normal of the plane
of the other two vectors, and selects the brute-force ASE list instead of
the spatial-partitioning `FastNeighborList` exactly when some axis
thickness is smaller than the largest per-atom cutoff. -/
theorem create_neighbor_lists_thin_fallback (c : Calc) (s : Atoms) (cuts : List ℚ)
    (marginal mc : ℚ) (hs : c.struct = some s) (hmax : np_max cuts = some mc)
    (h0 : 0 < dot (cross (s.cellVec 1) (s.cellVec 2)) (cross (s.cellVec 1) (s.cellVec 2)))
    (h1 : 0 < dot (cross (s.cellVec 2) (s.cellVec 0)) (cross (s.cellVec 2) (s.cellVec 0)))
    (h2 : 0 < dot (cross (s.cellVec 0) (s.cellVec 1)) (cross (s.cellVec 0) (s.cellVec 1))) :
    ThinSlabSelects c s cuts marginal mc := by
  have hcreate : create_neighbor_lists c (some cuts) marginal = Except.ok (set_cutoffs
      { c with
          neighbor_list := some
            { kind := if !(thin_axis (s.cellVec 0) (s.cellVec 1) (s.cellVec 2) mc
                  || thin_axis (s.cellVec 1) (s.cellVec 2) (s.cellVec 0) mc
                  || thin_axis (s.cellVec 2) (s.cellVec 0) (s.cellVec 1) mc)
                then NbrKind.fast else NbrKind.ase,
              cutoffs := cuts, skin := marginal, nupdates := 0, positions := [] },
          neighbor_lists_waiting := true } (some cuts)) := by
    unfold create_neighbor_lists
    dsimp only
    rw [hmax]
    dsimp only
    rw [hs]
  refine ⟨_, _, hcreate, rfl, ?_⟩
  · constructor
    · intro hk
      by_cases ht : (thin_axis (s.cellVec 0) (s.cellVec 1) (s.cellVec 2) mc
          || thin_axis (s.cellVec 1) (s.cellVec 2) (s.cellVec 0) mc
          || thin_axis (s.cellVec 2) (s.cellVec 0) (s.cellVec 1) mc) = true
      · rcases Bool.or_eq_true_iff.mp ht with h01 | hax2
        · rcases Bool.or_eq_true_iff.mp h01 with hax0 | hax1
          · exact ⟨0, (thin_axis_iff_real _ _ _ mc h0).mp hax0⟩
          · exact ⟨1, (thin_axis_iff_real _ _ _ mc h1).mp hax1⟩
        · exact ⟨2, (thin_axis_iff_real _ _ _ mc h2).mp hax2⟩
      · rw [Bool.not_eq_true] at ht
        simp [ht] at hk
    · rintro ⟨i, hi⟩
      fin_cases i
      · have hb := (thin_axis_iff_real (s.cellVec 0) (s.cellVec 1) (s.cellVec 2) mc h0).mpr hi
        simp [hb]
      · have hb := (thin_axis_iff_real (s.cellVec 1) (s.cellVec 2) (s.cellVec 0) mc h1).mpr hi
        simp [hb]
      · have hb := (thin_axis_iff_real (s.cellVec 2) (s.cellVec 0) (s.cellVec 1) mc h2).mpr hi
        simp [hb]

/-- Claim C3 witness: a 2-unit-thick slab with cutoff 3 satisfies the
hypotheses, so the selection property holds there. -/
theorem create_neighbor_lists_thin_fallback_witness :
    ThinSlabSelects exCalc3 exThinStruct [3] neighbor_marginal 3 :=
  create_neighbor_lists_thin_fallback exCalc3 exThinStruct [3] neighbor_marginal 3
    rfl rfl
    (by norm_num [dot, cross, Atoms.cellVec, exThinStruct])
    (by norm_num [dot, cross, Atoms.cellVec, exThinStruct])
    (by norm_num [dot, cross, Atoms.cellVec, exThinStruct])

theorem mem_pot_adds_isAdd (gi : Int) (p : Potential) (e : ECall)
    (he : e ∈ pot_adds gi p) : isAddPotential e = true := by
  rcases List.mem_append.mp he with h1 | h2
  · rcases List.mem_append.mp h1 with ha | hb
    · simp only [symbol_adds] at ha
      rcases List.mem_flatten.mp ha with ⟨l, hl, hel⟩
      rcases List.mem_map.mp hl with ⟨t, _, rfl⟩
      rcases List.mem_map.mp hel with ⟨perm, _, rfl⟩
      rfl
    · simp only [tag_adds] at hb
      rcases List.mem_flatten.mp hb with ⟨l, hl, hel⟩
      rcases List.mem_map.mp hl with ⟨t, _, rfl⟩
      rcases List.mem_map.mp hel with ⟨perm, _, rfl⟩
      rfl
  · simp only [index_adds] at h2
    rcases List.mem_flatten.mp h2 with ⟨l, hl, hel⟩
    rcases List.mem_map.mp hl with ⟨t, _, rfl⟩
    rcases List.mem_map.mp hel with ⟨perm, _, rfl⟩
    rfl

theorem mem_adds_isAdd (ps : List Potential) (e : ECall)
    (he : e ∈ (ps.enum.map fun pr =>
        pot_adds (if pr.2.coordinator.isSome then (pr.1 : Int) else -1) pr.2).flatten) :
    isAddPotential e = true := by
  rcases List.mem_flatten.mp he with ⟨l, hl, hel⟩
  rcases List.mem_map.mp hl with ⟨pr, _, rfl⟩
  exact mem_pot_adds_isAdd _ _ _ hel

theorem mem_bond_adds_not_isAdd (cl : List (Coordinator × Int)) (e : ECall)
    (he : e ∈ (cl.map fun pr => bond_adds_of_coord pr.2 pr.1).flatten) :
    isAddPotential e = false := by
  rcases List.mem_flatten.mp he with ⟨l, hl, hel⟩
  rcases List.mem_map.mp hl with ⟨pr, _, rfl⟩
  simp only [bond_adds_of_coord] at hel
  rcases List.mem_flatten.mp hel with ⟨l2, hl2, hel2⟩
  rcases List.mem_map.mp hl2 with ⟨b, _, rfl⟩
  rcases List.mem_flatten.mp hel2 with ⟨l3, hl3, hel3⟩
  rcases List.mem_map.mp hl3 with ⟨t, _, rfl⟩
  rcases List.mem_map.mp hel3 with ⟨perm, _, rfl⟩
  rfl

theorem pot_adds_length (gi : Int) (p : Potential) :
    (pot_adds gi p).length = pot_count p := by
  simp only [pot_adds, symbol_adds, tag_adds, index_adds, pot_count,
    List.length_append, List.length_flatten, List.map_map, Function.comp_def,
    List.length_map]

/-- Claim C4: pushing potentials registers exactly one `add_potential` call
per distinct ordered permutation of each target tuple, and the allocated
potential count equals the total number of distinct permutations over all
target tuples; in particular a tuple (A, B) with A distinct from B expands
to exactly the two registrations (A, B) and (B, A), and (A, A) to exactly
one. -/
theorem update_core_potentials_perm_counts :
    (∀ (w : World) (ps : List Potential), w.cal.potentials = some ps →
      ∃ t, (update_core_potentials w).engine.trace = w.engine.trace ++ t
        ∧ t.countP isAddPotential = (ps.map pot_count).sum
        ∧ ECall.allocate_potentials ((ps.map pot_count).sum) ∈ t)
    ∧ (∀ (A B : String) (p : Potential) (gi : Int),
        p.symbols = some [[A, B]] → p.tags = none → p.indices = none →
        (A ≠ B → pot_adds gi p
            = [ECall.add_potential p.potential_type p.cutoff (some [A, B]) none none gi,
               ECall.add_potential p.potential_type p.cutoff (some [B, A]) none none gi])
        ∧ (A = B → pot_adds gi p
            = [ECall.add_potential p.potential_type p.cutoff (some [A, A]) none none gi])) := by
  constructor
  · intro w ps hp
    unfold update_core_potentials
    dsimp only
    rw [hp]
    dsimp only
    by_cases hemp : ps.isEmpty
    · rw [if_pos hemp]
      rw [List.isEmpty_iff.mp hemp]
      refine ⟨[.allocate_potentials 0, .allocate_bond_order_factors 0], ?_, ?_, ?_⟩
      · simp [Engine.emitAll]
      · simp [isAddPotential, List.countP_cons]
      · simp
    · rw [if_neg hemp]
      dsimp only
      refine ⟨[ECall.allocate_potentials ((ps.map pot_count).sum)]
          ++ (ps.enum.map fun pr =>
              pot_adds (if pr.2.coordinator.isSome then (pr.1 : Int) else -1) pr.2).flatten
          ++ [ECall.allocate_bond_order_factors (((ps.enum.filterMap fun pr =>
                match pr.2.coordinator with
                | some c => some (c, (pr.1 : Int))
                | none => none).map fun pr => coord_bond_count pr.1).sum)]
          ++ ((ps.enum.filterMap fun pr =>
                match pr.2.coordinator with
                | some c => some (c, (pr.1 : Int))
                | none => none).map fun pr => bond_adds_of_coord pr.2 pr.1).flatten
          ++ [ECall.allocate_bond_order_storage w.engine.n_atoms ps.length
                (ps.enum.filterMap fun pr =>
                  match pr.2.coordinator with
                  | some c => some (c, (pr.1 : Int))
                  | none => none).length], ?_, ?_, ?_⟩
      · simp [Engine.emitAll]
      · rw [List.countP_append, List.countP_append, List.countP_append, List.countP_append]
        have c1 : List.countP isAddPotential
            [ECall.allocate_potentials ((ps.map pot_count).sum)] = 0 := by
          simp [isAddPotential, List.countP_cons]
        have c2 : List.countP isAddPotential ((ps.enum.map fun pr =>
            pot_adds (if pr.2.coordinator.isSome then (pr.1 : Int) else -1) pr.2).flatten)
            = (ps.map pot_count).sum := by
          rw [List.countP_eq_length.mpr (fun e he => mem_adds_isAdd ps e he)]
          rw [List.length_flatten]
          rw [List.map_map]
          have hco : ((fun l => l.length) ∘ fun pr : Nat × Potential =>
              pot_adds (if pr.2.coordinator.isSome then (pr.1 : Int) else -1) pr.2)
              = fun pr : Nat × Potential => pot_count pr.2 := by
            funext pr
            exact pot_adds_length _ _
          rw [hco]
          rw [show (fun pr : Nat × Potential => pot_count pr.2)
                = pot_count ∘ Prod.snd from rfl]
          rw [← List.map_map, List.enum_map_snd]
        have c4 : List.countP isAddPotential (((ps.enum.filterMap fun pr =>
            match pr.2.coordinator with
            | some c => some (c, (pr.1 : Int))
            | none => none).map fun pr => bond_adds_of_coord pr.2 pr.1).flatten) = 0 := by
          rw [List.countP_eq_zero]
          intro e he
          simp [mem_bond_adds_not_isAdd _ e he]
        rw [c1, c2, c4]
        have c3 : ∀ n : Nat, List.countP isAddPotential
            [ECall.allocate_bond_order_factors n] = 0 := by
          intro n
          simp [isAddPotential, List.countP_cons]
        have c5 : ∀ a b cnum : Nat, List.countP isAddPotential
            [ECall.allocate_bond_order_storage a b cnum] = 0 := by
          intro a b cnum
          simp [isAddPotential, List.countP_cons]
        rw [c3, c5]
        omega
      · simp
  · intro A B p gi hsym htag hind
    have hperm : ([A, B] : List String).permutations' = [[A, B], [B, A]] := rfl
    constructor
    · intro hne
      have hd : perms_dedup ([A, B] : List String) = [[A, B], [B, A]] := by
        rw [perms_dedup, hperm,
          List.dedup_cons_of_not_mem (by simp [hne]),
          List.dedup_cons_of_not_mem (by simp), List.dedup_nil]
      simp [pot_adds, symbol_adds, tag_adds, index_adds, hsym, htag, hind, hd]
    · intro heq
      subst heq
      have hd : perms_dedup ([A, A] : List String) = [[A, A]] := by
        rw [perms_dedup]
        rw [show ([A, A] : List String).permutations' = [[A, A], [A, A]] from rfl]
        rw [List.dedup_cons_of_mem (by simp),
          List.dedup_cons_of_not_mem (by simp), List.dedup_nil]
      simp [pot_adds, symbol_adds, tag_adds, index_adds, hsym, htag, hind, hd]

/-- Claim C4 witness: the registration count for the single (H, O)
potential, and the expansion of the (H, O) and (H, H) tuples. -/
theorem update_core_potentials_perm_witness :
    (∃ t, (update_core_potentials exW4).engine.trace = exW4.engine.trace ++ t
      ∧ t.countP isAddPotential = ([exPotAB].map pot_count).sum
      ∧ ECall.allocate_potentials (([exPotAB].map pot_count).sum) ∈ t)
    ∧ pot_adds (-1) exPotAB
        = [ECall.add_potential "LJ2" 2 (some ["H", "O"]) none none (-1),
           ECall.add_potential "LJ2" 2 (some ["O", "H"]) none none (-1)] :=
  ⟨update_core_potentials_perm_counts.1 exW4 [exPotAB] rfl,
   (update_core_potentials_perm_counts.2 "H" "O" exPotAB (-1) rfl rfl rfl).1
     (by decide)⟩

theorem isAdd_imp_table (e : ECall) (h : isAddPotential e = true) :
    isPotentialTableCall e = true := by
  cases e <;> first | rfl | exact absurd h (by simp [isAddPotential])

theorem mem_bond_adds_isBondTable (cl : List (Coordinator × Int)) (e : ECall)
    (he : e ∈ (cl.map fun pr => bond_adds_of_coord pr.2 pr.1).flatten) :
    isBondTableCall e = true := by
  rcases List.mem_flatten.mp he with ⟨l, hl, hel⟩
  rcases List.mem_map.mp hl with ⟨pr, _, rfl⟩
  simp only [bond_adds_of_coord] at hel
  rcases List.mem_flatten.mp hel with ⟨l2, hl2, hel2⟩
  rcases List.mem_map.mp hl2 with ⟨b, _, rfl⟩
  rcases List.mem_flatten.mp hel2 with ⟨l3, hl3, hel3⟩
  rcases List.mem_map.mp hl3 with ⟨t, _, rfl⟩
  rcases List.mem_map.mp hel3 with ⟨perm, _, rfl⟩
  rfl

theorem supercell_ok (w w2 : World) (h : update_core_supercell w = .ok w2) :
    w2.cal = w.cal ∧ w2.engine.n_atoms = w.engine.n_atoms
      ∧ w2.engine.trace = w.engine.trace ++ [ECall.create_cell] := by
  unfold update_core_supercell at h
  cases hst : w.cal.struct with
  | none =>
    rw [hst] at h
    simp at h
  | some s =>
    rw [hst] at h
    simp only [Except.ok.injEq] at h
    subst h
    exact ⟨rfl, rfl, by simp [Engine.emit]⟩

theorem potentials_trace (w : World) :
    ∃ tA tB, (update_core_potentials w).engine.trace = w.engine.trace ++ tA ++ tB
      ∧ (∀ e ∈ tA, isPotentialTableCall e = true)
      ∧ (∀ e ∈ tB, isBondTableCall e = true)
      ∧ (update_core_potentials w).cal = w.cal
      ∧ (update_core_potentials w).engine.n_atoms = w.engine.n_atoms := by
  unfold update_core_potentials
  dsimp only
  cases hp : w.cal.potentials with
  | none =>
    refine ⟨[.allocate_potentials 0], [.allocate_bond_order_factors 0],
      by simp [Engine.emitAll], ?_, ?_, rfl, rfl⟩
    · intro e he
      simp only [List.mem_singleton] at he
      subst he
      rfl
    · intro e he
      simp only [List.mem_singleton] at he
      subst he
      rfl
  | some ps =>
    dsimp only
    by_cases hemp : ps.isEmpty
    · rw [if_pos hemp]
      refine ⟨[.allocate_potentials 0], [.allocate_bond_order_factors 0],
        by simp [Engine.emitAll], ?_, ?_, rfl, rfl⟩
      · intro e he
        simp only [List.mem_singleton] at he
        subst he
        rfl
      · intro e he
        simp only [List.mem_singleton] at he
        subst he
        rfl
    · rw [if_neg hemp]
      dsimp only
      refine ⟨[ECall.allocate_potentials ((ps.map pot_count).sum)]
          ++ (ps.enum.map fun pr =>
              pot_adds (if pr.2.coordinator.isSome then (pr.1 : Int) else -1) pr.2).flatten,
        [ECall.allocate_bond_order_factors (((ps.enum.filterMap fun pr =>
              match pr.2.coordinator with
              | some c => some (c, (pr.1 : Int))
              | none => none).map fun pr => coord_bond_count pr.1).sum)]
          ++ ((ps.enum.filterMap fun pr =>
              match pr.2.coordinator with
              | some c => some (c, (pr.1 : Int))
              | none => none).map fun pr => bond_adds_of_coord pr.2 pr.1).flatten
          ++ [ECall.allocate_bond_order_storage w.engine.n_atoms ps.length
              (ps.enum.filterMap fun pr =>
                match pr.2.coordinator with
                | some c => some (c, (pr.1 : Int))
                | none => none).length], ?_, ?_, ?_, rfl, rfl⟩
      · simp [Engine.emitAll]
      · intro e he
        rcases List.mem_append.mp he with h1 | h2
        · simp only [List.mem_singleton] at h1
          subst h1
          rfl
        · exact isAdd_imp_table e (mem_adds_isAdd ps e h2)
      · intro e he
        rcases List.mem_append.mp he with h1 | h2
        · rcases List.mem_append.mp h1 with ha | hb
          · simp only [List.mem_singleton] at ha
            subst ha
            rfl
          · exact mem_bond_adds_isBondTable _ e hb
        · simp only [List.mem_singleton] at h2
          subst h2
          rfl

theorem charges_ok (w w2 : World) (h : update_core_charges w = .ok w2) :
    ∃ ch, w2.engine.trace = w.engine.trace ++ [ECall.update_atom_charges ch]
      ∧ w2.engine.n_atoms = w.engine.n_atoms := by
  unfold update_core_charges at h
  cases hst : w.cal.struct with
  | none =>
    rw [hst] at h
    simp at h
  | some s =>
    rw [hst] at h
    simp only [Except.ok.injEq] at h
    subst h
    exact ⟨s.get_charges, by simp [Engine.emit], rfl⟩

theorem coulomb_ok (w w2 : World) (h : update_core_coulomb w = .ok w2) :
    ∃ t, w2.engine.trace = w.engine.trace ++ t
      ∧ (∀ e ∈ t, isEwaldCall e = true)
      ∧ w2.engine.n_atoms = w.engine.n_atoms := by
  unfold update_core_coulomb at h
  cases hcl : w.cal.coulomb with
  | none =>
    rw [hcl] at h
    simp only [Except.ok.injEq] at h
    subst h
    exact ⟨[], by simp, by simp, rfl⟩
  | some cl =>
    rw [hcl] at h
    dsimp only at h
    by_cases hm : (cl.method == "ewald") = true
    · rw [if_pos hm] at h
      cases hst : w.cal.struct with
      | none =>
        rw [hst] at h
        simp at h
      | some s =>
        rw [hst] at h
        dsimp only at h
        cases hsc : cl.scaling_factors with
        | none =>
          rw [hsc] at h
          dsimp only at h
          simp only [Except.ok.injEq] at h
          subst h
          refine ⟨[ECall.set_ewald_parameters cl.get_realspace_cutoff],
            by simp [Engine.emit], ?_, rfl⟩
          intro e he
          simp only [List.mem_singleton] at he
          subst he
          rfl
        | some l =>
          rw [hsc] at h
          dsimp only at h
          by_cases hlen : l.length ≠ s.get_number_of_atoms
          · rw [if_pos hlen] at h
            simp at h
          · rw [if_neg hlen] at h
            simp only [Except.ok.injEq] at h
            subst h
            refine ⟨[ECall.set_ewald_parameters cl.get_realspace_cutoff],
              by simp [Engine.emit], ?_, rfl⟩
            intro e he
            simp only [List.mem_singleton] at he
            subst he
            rfl
    · rw [if_neg hm] at h
      simp only [Except.ok.injEq] at h
      subst h
      exact ⟨[], by simp, by simp, rfl⟩

theorem plists_ok (w w2 : World) (h : update_core_potential_lists w = .ok w2) :
    w2.engine.trace = w.engine.trace
        ++ [ECall.create_potential_list, ECall.create_bond_order_factor_list]
      ∧ w2.cal = w.cal ∧ w2.engine.n_atoms = w.engine.n_atoms := by
  unfold update_core_potential_lists at h
  by_cases hg : w.core.atoms_ready w.cal.struct = true
  · rw [if_neg (by simp [hg])] at h
    simp only [Except.ok.injEq] at h
    subst h
    exact ⟨by simp [Engine.emitAll], rfl, rfl⟩
  · rw [if_pos (by simp [Bool.not_eq_true] at hg ⊢; exact hg)] at h
    simp at h

theorem nbr_update_ok (core : CoreMirror) (eng : Engine) (nl : NeighborList)
    (a : Atoms) (pr : NeighborList × Engine) (h : nbr_update core eng nl a = .ok pr) :
    ∃ t, pr.2.trace = eng.trace ++ t ∧ (∀ e ∈ t, isNeighborCall e = true)
      ∧ pr.2.n_atoms = eng.n_atoms := by
  unfold nbr_update at h
  by_cases hcond : (nl.nupdates == 0 || ! (nl.positions == a.get_positions)) = true
  · rw [if_pos hcond] at h
    cases hk : nl.kind with
    | fast =>
      rw [hk] at h
      unfold fast_build at h
      by_cases h1 : core.atoms_ready (some a) = true
      · rw [if_neg (by simp [h1])] at h
        by_cases h2 : (match core.get_atoms with
            | some t => aseEq t a
            | none => false) = true
        · rw [if_neg (by simp [h2])] at h
          simp only [Except.ok.injEq] at h
          subst h
          refine ⟨ECall.generate_neighbor_lists
              :: ((List.range a.get_number_of_atoms).map fun i => .get_neighbors i),
            by simp [Engine.emit, Engine.emitAll], ?_, rfl⟩
          intro e he
          rcases List.mem_cons.mp he with h3 | h3
          · subst h3
            rfl
          · rcases List.mem_map.mp h3 with ⟨i, _, rfl⟩
            rfl
        · rw [if_pos (by simp [Bool.not_eq_true] at h2 ⊢; exact h2)] at h
          simp at h
      · rw [if_pos (by simp [Bool.not_eq_true] at h1 ⊢; exact h1)] at h
        simp at h
    | ase =>
      rw [hk] at h
      simp only [ase_build, Except.ok.injEq] at h
      subst h
      exact ⟨[], by simp, by simp, rfl⟩
  · rw [if_neg hcond] at h
    simp only [Except.ok.injEq] at h
    subst h
    exact ⟨[], by simp, by simp, rfl⟩

theorem ucnl_ok (w w2 : World) (h : update_core_neighbor_lists w = .ok w2) :
    ∃ t, w2.engine.trace = w.engine.trace ++ t ∧ (∀ e ∈ t, isNeighborCall e = true)
      ∧ w2.engine.n_atoms = w.engine.n_atoms
      ∧ w2.core.neighbor_lists = w2.cal.neighbor_list := by
  unfold update_core_neighbor_lists at h
  split at h
  · exact absurd h (by simp)
  · dsimp only at h
    split at h
    · exact absurd h (by simp)
    · rename_i cal1 hcal1
      split at h
      · rename_i nl s hnl hst
        split at h
        · exact absurd h (by simp)
        · rename_i pr heq2
          try dsimp only at h
          obtain ⟨t0, ht, hmem, hn⟩ := nbr_update_ok _ _ _ _ _ heq2
          cases hk : pr.1.kind with
          | fast =>
            rw [hk] at h
            try dsimp only at h
            rw [Except.ok.injEq] at h
            subst h
            refine ⟨t0, by simpa using ht, hmem, by simpa using hn, rfl⟩
          | ase =>
            rw [hk] at h
            try dsimp only at h
            rw [Except.ok.injEq] at h
            subst h
            refine ⟨t0 ++ ((List.range s.get_number_of_atoms).map
                fun i => ECall.create_neighbor_list (i + 1)), ?_, ?_, ?_, rfl⟩
            · simp [Engine.emitAll, ht, List.append_assoc]
            · intro e he
              rcases List.mem_append.mp he with h1 | h2
              · exact hmem e h1
              · rcases List.mem_map.mp h2 with ⟨i, _, rfl⟩
                rfl
            · simpa [Engine.emitAll] using hn
      · exact absurd h (by simp)

theorem coords_ok (w w2 : World) (h : update_core_coordinates w = .ok w2) :
    ∃ t, w2.engine.trace = w.engine.trace ++ ECall.update_atom_coordinates :: t
      ∧ (∀ e ∈ t, isNeighborCall e = true)
      ∧ w2.engine.n_atoms = w.engine.n_atoms
      ∧ w2.core.neighbor_lists = w2.cal.neighbor_list := by
  unfold update_core_coordinates at h
  split at h
  · exact absurd h (by simp)
  · rename_i s hst
    split at h
    · exact absurd h (by simp)
    · dsimp only at h
      split at h
      · exact absurd h (by simp)
      · rename_i w2c heqW
        obtain ⟨t0, ht, hmem, hn, hmirror⟩ := ucnl_ok _ _ h
        have hw2c : w2c.engine = ((w.engine).emit .update_atom_coordinates) := by
          split at heqW
          · split at heqW
            · exact absurd heqW (by simp)
            · rw [Except.ok.injEq] at heqW
              subst heqW
              rfl
          · rw [Except.ok.injEq] at heqW
            subst heqW
            rfl
        refine ⟨t0, ?_, hmem, ?_, hmirror⟩
        · rw [ht, hw2c]
          simp [Engine.emit]
        · rw [hn, hw2c]
          rfl

/-- Claim C1 (amended): `set_core` performs a full reinitialization if and
only if forced-full-reinit mode is set, or worker distribution never
completed, or the mirrored core holds no atoms, or the structure's atom
count differs from the mirror's or from the engine's own atom count; and
the full reinitialization pushes atoms, worker distribution, cell, the
potential table, the bond-order tables, the neighbor lists, the
applicability lists and the Coulomb configuration, in that order, before
the compute call. -/
theorem set_core_full_reinit_spec (w : World) (s : Atoms) (hs : w.cal.struct = some s) :
    (do_full_init w = some true ↔ FullReinitConditions w s)
    ∧ (∀ w2, do_full_init w = some true → calculate_energy w = .ok w2 →
        FullReinitTrace w w2 s) := by
  constructor
  · unfold do_full_init FullReinitConditions
    by_cases hf : w.cal.force_core_initialization = true
    · simp [hf]
    · by_cases hm : w.core.mpi_ready = true
      · rcases hsc : w.core.struct with _ | t
        · simp [hf, hm, hsc, CoreMirror.get_atoms]
        · rw [hs]
          by_cases h4 : s.get_number_of_atoms ≠ t.get_number_of_atoms
          · simp [hf, hm, hsc, CoreMirror.get_atoms, h4]
          · by_cases h5 : s.get_number_of_atoms ≠ w.engine.n_atoms
            · simp [hf, hm, hsc, CoreMirror.get_atoms, h4, h5]
            · simp [hf, hm, hsc, CoreMirror.get_atoms, h4, h5]
      · simp [hf, hm]
  · intro w2 hfull hcalc
    unfold calculate_energy at hcalc
    split at hcalc
    · exact absurd hcalc (by simp)
    · rename_i w1 hsc1
      rw [Except.ok.injEq] at hcalc
      unfold set_core at hsc1
      rw [hfull] at hsc1
      unfold initialize_fortran_core at hsc1
      rw [hs] at hsc1
      try dsimp only at hsc1
      split at hsc1
      · exact absurd hsc1 (by simp)
      · rename_i w3 hA
        try dsimp only at hsc1
        split at hsc1
        · exact absurd hsc1 (by simp)
        · rename_i w5 hN
          split at hsc1
          · exact absurd hsc1 (by simp)
          · rename_i w6 hP
            obtain ⟨hAcal, hAn, hAtrace⟩ := supercell_ok _ _ hA
            obtain ⟨tA, tB, hPt, hPa, hPb, hPcal, hPn⟩ := potentials_trace w3
            obtain ⟨tN, hNt, hNa, hNn, _⟩ := ucnl_ok _ _ hN
            obtain ⟨hLt, hLcal, hLn⟩ := plists_ok _ _ hP
            obtain ⟨tC, hCt, hCa, hCn⟩ := coulomb_ok _ _ hsc1
            refine ⟨tA, tB, tN, tC, ?_, hPa, hPb, hNa, hCa⟩
            rw [← hcalc]
            simp only [Engine.emit]
            rw [hCt, hLt, hNt, hPt, hAtrace]
            simp [Engine.emit, List.append_assoc]

/-- Claim C1 witness: the forced one-atom world fully reinitializes and
its energy-computation trace has the stated shape. -/
theorem set_core_full_reinit_witness :
    do_full_init exW1 = some true
    ∧ ∃ w2, calculate_energy exW1 = Except.ok w2 ∧ FullReinitTrace exW1 w2 exStruct := by
  refine ⟨by decide, ?_⟩
  rcases hq : calculate_energy exW1 with e | w2
  · have hok : (calculate_energy exW1).toOption.isSome = true := by decide
    rw [hq] at hok
    simp [Except.toOption] at hok
  · exact ⟨w2, rfl, (set_core_full_reinit_spec exW1 exStruct rfl).2 w2 (by decide) hq⟩

/-- Claim C1 counterexample: at the concrete forced world the worker
distribution is pushed at position 1, before the cell at position 2 —
the claimed order (cell, potentials, bond-order tables and neighbor lists
all before worker distribution) is violated by the code. -/
theorem set_core_order_cex :
    (set_core exW1).toOption.map (fun w => w.engine.trace)
      = some [ECall.create_atoms 1, ECall.distribute_mpi 1, ECall.create_cell,
          ECall.allocate_potentials 0, ECall.allocate_bond_order_factors 0,
          ECall.create_potential_list, ECall.create_bond_order_factor_list]
    ∧ List.findIdx (fun e => e == ECall.distribute_mpi 1)
        [ECall.create_atoms 1, ECall.distribute_mpi 1, ECall.create_cell,
          ECall.allocate_potentials 0, ECall.allocate_bond_order_factors 0,
          ECall.create_potential_list, ECall.create_bond_order_factor_list]
      < List.findIdx (fun e => e == ECall.create_cell)
        [ECall.create_atoms 1, ECall.distribute_mpi 1, ECall.create_cell,
          ECall.allocate_potentials 0, ECall.allocate_bond_order_factors 0,
          ECall.create_potential_list, ECall.create_bond_order_factor_list] :=
  ⟨by decide, by decide⟩

theorem stage_cell_spec (w w1 : World) (h : stage_cell w = .ok w1) :
    (w.core.cell_ready w.cal.struct = true → w1 = w)
    ∧ (w.core.cell_ready w.cal.struct = false →
        w1.engine.trace = w.engine.trace ++ [ECall.create_cell]) := by
  unfold stage_cell at h
  by_cases hr : w.core.cell_ready w.cal.struct = true
  · rw [if_neg (by simp [hr])] at h
    rw [Except.ok.injEq] at h
    exact ⟨fun _ => h.symm, fun hc => absurd hr (by simp [hc])⟩
  · rw [if_pos (by simp [Bool.not_eq_true] at hr ⊢; exact hr)] at h
    obtain ⟨_, _, ht⟩ := supercell_ok _ _ h
    exact ⟨fun hc => absurd hc hr, fun _ => ht⟩

theorem stage_coord_spec (w w1 : World) (h : stage_coord w = .ok w1) :
    (w.core.atoms_ready w.cal.struct = true → w1 = w)
    ∧ (w.core.atoms_ready w.cal.struct = false →
        ∃ t, w1.engine.trace = w.engine.trace ++ ECall.update_atom_coordinates :: t
          ∧ (∀ e ∈ t, isNeighborCall e = true)
          ∧ w1.core.neighbor_lists = w1.cal.neighbor_list) := by
  unfold stage_coord at h
  by_cases hr : w.core.atoms_ready w.cal.struct = true
  · rw [if_neg (by simp [hr])] at h
    rw [Except.ok.injEq] at h
    exact ⟨fun _ => h.symm, fun hc => absurd hr (by simp [hc])⟩
  · rw [if_pos (by simp [Bool.not_eq_true] at hr ⊢; exact hr)] at h
    obtain ⟨t, ht, hmem, _, hmir⟩ := coords_ok _ _ h
    exact ⟨fun hc => absurd hc hr, fun _ => ⟨t, ht, hmem, hmir⟩⟩

theorem stage_charges_spec (w w1 : World) (h : stage_charges w = .ok w1) :
    (w.core.charges_ready w.cal.struct = true → w1 = w)
    ∧ (w.core.charges_ready w.cal.struct = false →
        ∃ ch, w1.engine.trace = w.engine.trace ++ [ECall.update_atom_charges ch]) := by
  unfold stage_charges at h
  by_cases hr : w.core.charges_ready w.cal.struct = true
  · rw [if_neg (by simp [hr])] at h
    rw [Except.ok.injEq] at h
    exact ⟨fun _ => h.symm, fun hc => absurd hr (by simp [hc])⟩
  · rw [if_pos (by simp [Bool.not_eq_true] at hr ⊢; exact hr)] at h
    obtain ⟨ch, ht, _⟩ := charges_ok _ _ h
    exact ⟨fun hc => absurd hc hr, fun _ => ⟨ch, ht⟩⟩

theorem stage_potentials_spec (w w1 : World) (h : stage_potentials w = .ok w1) :
    (w.core.potentials_ready w.cal.potentials = true → w1 = w)
    ∧ (w.core.potentials_ready w.cal.potentials = false →
        ∃ tA tB, w1.engine.trace = w.engine.trace ++ tA ++ tB
          ∧ (∀ e ∈ tA, isPotentialTableCall e = true)
          ∧ (∀ e ∈ tB, isBondTableCall e = true)) := by
  unfold stage_potentials at h
  by_cases hr : w.core.potentials_ready w.cal.potentials = true
  · rw [if_neg (by simp [hr])] at h
    rw [Except.ok.injEq] at h
    exact ⟨fun _ => h.symm, fun hc => absurd hr (by simp [hc])⟩
  · rw [if_pos (by simp [Bool.not_eq_true] at hr ⊢; exact hr)] at h
    rw [Except.ok.injEq] at h
    obtain ⟨tA, tB, ht, hA, hB, _, _⟩ := potentials_trace w
    exact ⟨fun hc => absurd hc hr, fun _ => ⟨tA, tB, by rw [← h]; exact ht, hA, hB⟩⟩

theorem stage_coulomb_spec (w w1 : World) (h : stage_coulomb w = .ok w1) :
    ((∀ cl, w.cal.coulomb = some cl → w.core.coulomb_summation_ready cl = true) →
        w1 = w)
    ∧ (∃ t, w1.engine.trace = w.engine.trace ++ t
        ∧ ∀ e ∈ t, isEwaldCall e = true) := by
  unfold stage_coulomb at h
  cases hcl : w.cal.coulomb with
  | none =>
    rw [hcl] at h
    simp only [Except.ok.injEq] at h
    subst h
    exact ⟨fun _ => rfl, ⟨[], by simp, by simp⟩⟩
  | some cl =>
    rw [hcl] at h
    dsimp only at h
    by_cases hr : w.core.coulomb_summation_ready cl = true
    · rw [if_neg (by simp [hr])] at h
      rw [Except.ok.injEq] at h
      subst h
      exact ⟨fun _ => rfl, ⟨[], by simp, by simp⟩⟩
    · rw [if_pos (by simp [Bool.not_eq_true] at hr ⊢; exact hr)] at h
      obtain ⟨t, ht, hmem, _⟩ := coulomb_ok _ _ h
      refine ⟨fun hall => absurd (hall cl rfl) hr, ⟨t, ht, hmem⟩⟩

theorem stage_plists_spec (w w1 : World) (h : stage_potential_lists w = .ok w1) :
    (w.core.potential_lists_ready = true → w1 = w)
    ∧ (w.core.potential_lists_ready = false →
        w1.engine.trace = w.engine.trace
          ++ [ECall.create_potential_list, ECall.create_bond_order_factor_list]) := by
  unfold stage_potential_lists at h
  by_cases hr : w.core.potential_lists_ready = true
  · rw [if_neg (by simp [hr])] at h
    rw [Except.ok.injEq] at h
    exact ⟨fun _ => h.symm, fun hc => absurd hr (by simp [hc])⟩
  · rw [if_pos (by simp [Bool.not_eq_true] at hr ⊢; exact hr)] at h
    obtain ⟨ht, _, _⟩ := plists_ok _ _ h
    exact ⟨fun hc => absurd hc hr, fun _ => ht⟩

theorem stage_neighbor_spec (w w1 : World) (h : stage_neighbor w = .ok w1) :
    (w.core.neighbor_lists_ready w.cal.neighbor_list = true
        ∧ w.cal.neighbor_lists_waiting = true → w1 = w)
    ∧ (∃ t, w1.engine.trace = w.engine.trace ++ t
        ∧ ∀ e ∈ t, isNeighborCall e = true) := by
  unfold stage_neighbor at h
  by_cases hw : w.cal.neighbor_lists_waiting = true
  · rw [if_neg (by simp [hw])] at h
    dsimp only at h
    by_cases hr : w.core.neighbor_lists_ready w.cal.neighbor_list = true
    · rw [if_neg (by simp [hr])] at h
      rw [Except.ok.injEq] at h
      subst h
      exact ⟨fun _ => rfl, ⟨[], by simp, by simp⟩⟩
    · rw [if_pos (by simp [Bool.not_eq_true] at hr ⊢; exact hr)] at h
      obtain ⟨t, ht, hmem, _, _⟩ := ucnl_ok _ _ h
      exact ⟨fun hc => absurd hc.1 hr, ⟨t, ht, hmem⟩⟩
  · rw [if_pos (by simp [Bool.not_eq_true] at hw ⊢; exact hw)] at h
    refine ⟨fun hc => absurd hc.2 hw, ?_⟩
    split at h
    · exact absurd h (by simp)
    · rename_i wc hcw
      have hwc_eng : wc.engine = w.engine := by
        split at hcw
        · exact absurd hcw (by simp)
        · rw [Except.ok.injEq] at hcw
          subst hcw
          rfl
      by_cases hr2 : wc.core.neighbor_lists_ready wc.cal.neighbor_list = true
      · rw [if_neg (by simp [hr2])] at h
        rw [Except.ok.injEq] at h
        subst h
        exact ⟨[], by simp [hwc_eng], by simp⟩
      · rw [if_pos (by simp [Bool.not_eq_true] at hr2 ⊢; exact hr2)] at h
        obtain ⟨t, ht, hmem, _, _⟩ := ucnl_ok _ _ h
        exact ⟨t, by rw [ht, hwc_eng], hmem⟩

/-- Claim C5: when no full reinitialization is triggered, `set_core` runs
the stages cell, coordinates, charges, potentials, Coulomb configuration,
applicability lists and neighbor lists in this fixed order, pushes only
components whose readiness predicate reports false, and a push of
coordinates triggers a neighbor-list update as a side effect. -/
theorem set_core_incremental_spec (w w7 : World)
    (hfull : do_full_init w = some false) (hok : set_core w = .ok w7) :
    IncrementalOrdered w w7 := by
  unfold set_core at hok
  rw [hfull] at hok
  try dsimp only at hok
  unfold set_core_incremental at hok
  split at hok
  · exact absurd hok (by simp)
  · rename_i w1 h1
    split at hok
    · exact absurd hok (by simp)
    · rename_i w2 h2
      split at hok
      · exact absurd hok (by simp)
      · rename_i w3 h3
        split at hok
        · exact absurd hok (by simp)
        · rename_i w4 h4
          split at hok
          · exact absurd hok (by simp)
          · rename_i w5 h5
            split at hok
            · exact absurd hok (by simp)
            · rename_i w6 h6
              obtain ⟨c1a, c1b⟩ := stage_cell_spec _ _ h1
              obtain ⟨c2a, c2b⟩ := stage_coord_spec _ _ h2
              obtain ⟨c3a, c3b⟩ := stage_charges_spec _ _ h3
              obtain ⟨c4a, c4b⟩ := stage_potentials_spec _ _ h4
              obtain ⟨c5a, c5b⟩ := stage_coulomb_spec _ _ h5
              obtain ⟨c6a, c6b⟩ := stage_plists_spec _ _ h6
              obtain ⟨c7a, c7b⟩ := stage_neighbor_spec _ _ hok
              exact ⟨w1, w2, w3, w4, w5, w6, h1, h2, h3, h4, h5, h6, hok,
                c1a, c1b, c2a, c2b, c3a, c3b, c4a, c4b, c5a, c5b, c6a, c6b,
                c7a, c7b⟩

/-- Claim C5 witness: the fully synchronized world takes the incremental
branch and pushes nothing. -/
theorem set_core_incremental_witness : IncrementalOrdered exSynced exSynced :=
  set_core_incremental_spec exSynced exSynced (by decide) (by decide)

end PysicModel
